import Mathlib

/-!
Verification development for the memory-search coordination layer of the
openclaw repository.  The Lean definitions below are a shallow embedding of

  * src/memory/search-manager.ts  (provider cache, fingerprinting, and the
    FallbackMemoryManager decorator), and
  * src/memory/engram-manager.ts  (the subprocess adapter).

JavaScript runtime values that flow through the code are modelled by the
inductive type Json below (JSON-representable values: the configuration
objects being fingerprinted and the parsed subprocess responses).  Subprocess
executions are modelled by a ProcOutcome environment value describing what
the spawned process did (spawn error, timeout, or exit with accumulated
stdout/stderr); everything the adapter computes from such an outcome is
embedded faithfully, including JSON.parse (a real parser below), JavaScript
truthiness, nullish coalescing, and the String()/Number() coercions used by
the result mapping.
-/

/-- Model of a JavaScript JSON-representable value.  Object fields are kept
in insertion order, as JavaScript objects do; numbers are modelled as exact
rationals (every JSON numeric literal denotes a rational). -/
inductive Json where
  | null : Json
  | bool (b : Bool) : Json
  | num (q : Rat) : Json
  | str (s : String) : Json
  | arr (elems : List Json) : Json
  | obj (fields : List (String × Json)) : Json
deriving Repr

/-- Lexicographic comparison of character lists by code point.  This models
the total order used to sort object keys (the source sorts with
a.localeCompare(b); any total order on strings yields the same canonical
form, which is all the fingerprint invariant needs). -/
def charListLe : List Char → List Char → Bool
  | [], _ => true
  | _ :: _, [] => false
  | a :: as, b :: bs =>
    if a.toNat < b.toNat then true
    else if b.toNat < a.toNat then false
    else charListLe as bs

/-- Total order on strings used for key sorting. -/
def strLe (a b : String) : Bool := charListLe a.data b.data

/-- Last binding for a key in a field list (JavaScript duplicate-key
semantics for JSON.parse). -/
def Json.lookupLast : List (String × Json) → String → Option Json
  | [], _ => none
  | (k, v) :: rest, key =>
    match Json.lookupLast rest key with
    | some w => some w
    | none => if k = key then some v else none

/-- Property access on a JSON value, modelling JavaScript member access:
on an object the (unique) binding for the key is returned — for objects
built by JSON.parse a later duplicate overwrites an earlier one, so the
last binding wins; on every non-object value the access yields undefined,
modelled as none. -/
def Json.getField? : Json → String → Option Json
  | .obj fs, key => Json.lookupLast fs key
  | _, _ => none

/-- First binding for a key in a field list (used where the embedding needs
plain association-list lookup; on well-formed objects keys are unique, so
this agrees with Json.lookupLast). -/
def lookupField : List (String × Json) → String → Option Json
  | [], _ => none
  | (k, v) :: fs, key => if k = key then some v else lookupField fs key

/-- JavaScript truthiness of a JSON value: null, false, 0 and the empty
string are falsy; every object and array is truthy. -/
def Json.truthy : Json → Bool
  | .null => false
  | .bool b => b
  | .num q => decide (q ≠ 0)
  | .str s => decide (s ≠ "")
  | .arr _ => true
  | .obj _ => true

/-- Nullish test on an optional JSON value: JavaScript treats undefined
(modelled as none) and null alike in the nullish-coalescing operator. -/
def nullish : Option Json → Bool
  | none => true
  | some .null => true
  | some _ => false

/-- Nullish coalescing: the left value unless it is undefined or null. -/
def coalesce : Option Json → Json → Json
  | none, d => d
  | some .null, d => d
  | some v, _ => v

/-- Result of the JavaScript Number() coercion: either not-a-number, an
infinity, or a finite (rational) value. -/
inductive JsNum where
  | nan : JsNum
  | posInf : JsNum
  | negInf : JsNum
  | finite (q : Rat) : JsNum
deriving DecidableEq, Repr

/-- Decimal digit test on a character. -/
def isDigit (c : Char) : Bool := 48 ≤ c.toNat && c.toNat ≤ 57

/-- Numeric value of a decimal digit list (most significant first). -/
def digitsToNat (ds : List Char) : Nat :=
  ds.foldl (fun acc c => acc * 10 + (c.toNat - 48)) 0

/-- Decimal expansion of the fractional part rem/den, up to the given
number of digits (enough for every value the embedded programs print). -/
def fracDigits : Nat → Nat → Nat → String
  | 0, _, _ => ""
  | fuel + 1, rem, den =>
    if rem = 0 then ""
    else
      let r10 := rem * 10
      String.singleton (Char.ofNat (48 + r10 / den)) ++ fracDigits fuel (r10 % den) den

/-- Decimal rendering of a rational, modelling how JavaScript prints the
numbers that occur in this code base (integers without a decimal point,
terminating decimals in full). -/
def ratToString (q : Rat) : String :=
  if q.den = 1 then toString q.num
  else
    (if q.num < 0 then "-" else "") ++
      toString (q.num.natAbs / q.den) ++ "." ++ fracDigits 40 (q.num.natAbs % q.den) q.den

mutual
/-- JavaScript String() coercion of a JSON value. -/
def jsStr : Json → String
  | .null => "null"
  | .bool b => cond b "true" "false"
  | .num q => ratToString q
  | .str s => s
  | .arr xs => jsStrList xs
  | .obj _ => "[object Object]"

/-- Array-to-string conversion (Array.prototype.join with separator ","):
null elements render as the empty string, every other element by String(). -/
def jsStrList : List Json → String
  | [] => ""
  | [x] =>
    match x with
    | .null => ""
    | v => jsStr v
  | x :: y :: xs =>
    (match x with
     | .null => ""
     | v => jsStr v) ++ "," ++ jsStrList (y :: xs)
end

/-- Leading sign of a numeral; returns whether it was a minus sign and the
remaining characters. -/
def popSign : List Char → Bool × List Char
  | '-' :: cs => (true, cs)
  | '+' :: cs => (false, cs)
  | cs => (false, cs)

/-- JavaScript whitespace trim used by Number() on strings. -/
def trimWsChars (cs : List Char) : List Char :=
  (cs.dropWhile fun c => c = ' ' ∨ c = '\t' ∨ c = '\n' ∨ c = '\r').reverse
    |>.dropWhile (fun c => c = ' ' ∨ c = '\t' ∨ c = '\n' ∨ c = '\r') |>.reverse

/-- Exponent suffix of a lenient decimal numeral ("e"/"E", optional sign,
digits); no exponent present parses as exponent zero. -/
def popExponent : List Char → Option (Int × List Char)
  | c :: r =>
    if c = 'e' ∨ c = 'E' then
      match popSign r with
      | (neg, r2) =>
        match r2.span isDigit with
        | ([], _) => none
        | (ds, rest) => some ((if neg then -(digitsToNat ds : Int) else (digitsToNat ds : Int)), rest)
    else some (0, c :: r)
  | [] => some (0, [])

/-- Power of ten as a rational, with negative exponents. -/
def ratPow10 : Int → Rat
  | .ofNat n => (10 : Rat) ^ n
  | .negSucc n => 1 / (10 : Rat) ^ (n + 1)

/-- Unsigned lenient decimal numeral as accepted by Number(): digits with an
optional fractional part (either side of the point may be empty, not both),
and an optional exponent; the whole input must be consumed. -/
def jsNumeral (cs : List Char) : Option Rat :=
  match cs.span isDigit with
  | (intDs, rest) =>
    match rest with
    | '.' :: r =>
      match r.span isDigit with
      | (fracDs, rest2) =>
        if intDs.isEmpty ∧ fracDs.isEmpty then none
        else
          match popExponent rest2 with
          | some (e, []) =>
            some (((digitsToNat intDs : Rat) +
              (digitsToNat fracDs : Rat) / ((10 : Rat) ^ fracDs.length)) * ratPow10 e)
          | _ => none
    | _ =>
      if intDs.isEmpty then none
      else
        match popExponent rest with
        | some (e, []) => some ((digitsToNat intDs : Rat) * ratPow10 e)
        | _ => none

/-- JavaScript Number() coercion of a string: trimmed whitespace, empty
string is 0, signed Infinity is recognised, otherwise a lenient decimal
numeral; anything else is NaN.  (Hexadecimal, octal and binary numerals are
not modelled; no value in this code base reaches them.) -/
def strToNum (s : String) : JsNum :=
  match trimWsChars s.data with
  | [] => .finite 0
  | cs =>
    match popSign cs with
    | (neg, cs1) =>
      if cs1 = ['I', 'n', 'f', 'i', 'n', 'i', 't', 'y'] then
        if neg then .negInf else .posInf
      else
        match jsNumeral cs1 with
        | some q => .finite (if neg then -q else q)
        | none => .nan

/-- JavaScript Number() coercion of a JSON value: null is 0, booleans are
0/1, numbers are themselves, strings parse leniently, arrays convert via
their join string, plain objects are NaN. -/
def jsNum : Json → JsNum
  | .null => .finite 0
  | .bool b => .finite (cond b 1 0)
  | .num q => .finite q
  | .str s => strToNum s
  | .arr xs => strToNum (jsStrList xs)
  | .obj _ => .nan

/-- Whitespace skipping inside JSON text (the four JSON whitespace
characters). -/
def skipWs : List Char → List Char
  | c :: cs => if c = ' ' ∨ c = '\t' ∨ c = '\n' ∨ c = '\r' then skipWs cs else c :: cs
  | [] => []

/-- Hexadecimal digit value. -/
def hexVal (c : Char) : Option Nat :=
  if 48 ≤ c.toNat ∧ c.toNat ≤ 57 then some (c.toNat - 48)
  else if 97 ≤ c.toNat ∧ c.toNat ≤ 102 then some (c.toNat - 87)
  else if 65 ≤ c.toNat ∧ c.toNat ≤ 70 then some (c.toNat - 55)
  else none

/-- Single-character JSON string escapes (the unicode escape is handled
separately). -/
def escChar : Char → Option Char
  | '"' => some '"'
  | '\\' => some '\\'
  | '/' => some '/'
  | 'b' => some '\x08'
  | 'f' => some '\x0c'
  | 'n' => some '\n'
  | 'r' => some '\r'
  | 't' => some '\t'
  | _ => none

/-- Body of a JSON string literal after the opening quote: returns the
decoded string and the characters after the closing quote.  Handles the
JSON escapes including unicode escapes, and rejects raw control
characters. -/
def parseStringBody : List Char → Option (String × List Char)
  | [] => none
  | '"' :: rest => some ("", rest)
  | '\\' :: 'u' :: h1 :: h2 :: h3 :: h4 :: rest =>
    (match hexVal h1, hexVal h2, hexVal h3, hexVal h4, parseStringBody rest with
     | some a, some b, some c, some d, some (s, r) =>
       some (String.singleton (Char.ofNat (((a * 16 + b) * 16 + c) * 16 + d)) ++ s, r)
     | _, _, _, _, _ => none)
  | '\\' :: e :: rest =>
    (match escChar e, parseStringBody rest with
     | some c, some (s, r) => some (String.singleton c ++ s, r)
     | _, _ => none)
  | c :: rest =>
    if c.toNat < 32 then none
    else
      match parseStringBody rest with
      | some (s, r) => some (String.singleton c ++ s, r)
      | none => none

/-- Strict JSON number (RFC 8259 grammar: optional minus, integer part with
no leading zero, optional fraction, optional exponent). -/
def parseJsonNumber (cs : List Char) : Option (Rat × List Char) :=
  match (match cs with
         | '-' :: r => (true, r)
         | r => (false, r)) with
  | (neg, cs1) =>
    match cs1.span isDigit with
    | ([], _) => none
    | (intDs, cs2) =>
      if 2 ≤ intDs.length ∧ intDs.head? = some '0' then none
      else
        match (match cs2 with
               | '.' :: r =>
                 match r.span isDigit with
                 | ([], _) => none
                 | (ds, rest) => some ((digitsToNat ds, 10 ^ ds.length), rest)
               | r => some ((0, 1), r)) with
        | none => none
        | some ((fracN, fracD), cs3) =>
          match popExponent cs3 with
          | none => none
          | some (e, cs4) =>
            let mag : Rat :=
              ((digitsToNat intDs : Rat) + (fracN : Rat) / (fracD : Rat)) * ratPow10 e
            some ((if neg then -mag else mag), cs4)

mutual
/-- Recursive-descent JSON value parser with fuel (the fuel is at least the
input length plus one, which every call below respects). -/
def parseValue : Nat → List Char → Option (Json × List Char)
  | 0, _ => none
  | fuel + 1, cs =>
    match skipWs cs with
    | 'n' :: 'u' :: 'l' :: 'l' :: rest => some (.null, rest)
    | 't' :: 'r' :: 'u' :: 'e' :: rest => some (.bool true, rest)
    | 'f' :: 'a' :: 'l' :: 's' :: 'e' :: rest => some (.bool false, rest)
    | '"' :: rest => (parseStringBody rest).map fun p => (.str p.1, p.2)
    | '\x7b' :: rest =>
      (match skipWs rest with
       | '\x7d' :: rest2 => some (Json.obj [], rest2)
       | body => (parseObjItems fuel body).map fun p => (.obj p.1, p.2))
    | '[' :: rest =>
      (match skipWs rest with
       | ']' :: rest2 => some (Json.arr [], rest2)
       | body => (parseArrItems fuel body).map fun p => (.arr p.1, p.2))
    | c :: rest =>
      if c = '-' ∨ isDigit c then
        (parseJsonNumber (c :: rest)).map fun p => (.num p.1, p.2)
      else none
    | [] => none

/-- Comma-separated JSON array items, up to and including the closing
bracket. -/
def parseArrItems : Nat → List Char → Option (List Json × List Char)
  | 0, _ => none
  | fuel + 1, cs =>
    (parseValue fuel cs).bind fun p =>
      match skipWs p.2 with
      | ',' :: r => (parseArrItems fuel r).map fun q => (p.1 :: q.1, q.2)
      | ']' :: r => some ([p.1], r)
      | _ => none

/-- Comma-separated JSON object members, up to and including the closing
brace. -/
def parseObjItems : Nat → List Char → Option (List (String × Json) × List Char)
  | 0, _ => none
  | fuel + 1, cs =>
    match skipWs cs with
    | '"' :: rest =>
      (parseStringBody rest).bind fun kp =>
        match skipWs kp.2 with
        | ':' :: r2 =>
          (parseValue fuel r2).bind fun vp =>
            match skipWs vp.2 with
            | ',' :: r4 => (parseObjItems fuel r4).map fun q => ((kp.1, vp.1) :: q.1, q.2)
            | '\x7d' :: r4 => some ([(kp.1, vp.1)], r4)
            | _ => none
        | _ => none
    | _ => none
end

/-- Model of JSON.parse: parse one value and require only whitespace to
remain; any other outcome (including empty input) is a parse failure. -/
def parseJson (s : String) : Option Json :=
  match parseValue (s.length + 1) s.data with
  | some (v, rest) => if skipWs rest = [] then some v else none
  | none => none

/-- Normalized search hit produced by every provider (types.ts
MemorySearchResult as used here): the score field carries the result of the
JavaScript Number() coercion. -/
structure SearchResult where
  path : String
  startLine : Nat
  endLine : Nat
  score : JsNum
  snippet : String
  source : String
deriving DecidableEq, Repr

/-- Result of readFile: the joined text and the echoed relative path. -/
structure FileReadResult where
  text : String
  path : String
deriving DecidableEq, Repr

/-- Everything a spawned adapter process did, as observed by the exec
promise in engram-manager.ts: the child emitted an error event (spawn
failure), the per-call timer fired first (the child is SIGKILLed), or the
child closed with an exit code and accumulated stdout/stderr streams. -/
inductive ProcOutcome where
  | spawnError (message : String)
  | timeout
  | closed (code : Int) (stdout : String) (stderr : String)
deriving DecidableEq, Repr

/-- Resolved constructor options of the subprocess adapter
(engram-manager.ts lines 36-47, non-cfg variant). -/
structure EngramOpts where
  workspaceDir : String
  command : String
  timeoutMs : Nat
deriving DecidableEq, Repr

/-- Default adapter command (engram-manager.ts line 13). -/
def DEFAULT_COMMAND : String := "engram-openclaw-adapter"

/-- Default per-call timeout (engram-manager.ts line 14). -/
def DEFAULT_TIMEOUT_MS : Nat := 4000

/-- Embedding of EngramMemoryManager.exec (engram-manager.ts lines 118-161):
a spawn error rejects with that error; a timeout rejects with the timeout
message; a non-zero exit rejects with the accumulated stderr, or with the
generic exited-with-code message when stderr is empty (JavaScript falsy
check on the string); a zero exit parses the accumulated stdout — with the
empty string replaced by the two-character empty-object text, modelling the
JavaScript or-else on the falsy empty string — and resolves with the parsed
JSON, rejecting with the invalid-JSON message when parsing fails. -/
def EngramMemoryManager.exec (subcommand : String) (outcome : ProcOutcome) :
    Except String Json :=
  match outcome with
  | .spawnError m => .error m
  | .timeout => .error ("engram adapter timeout (" ++ subcommand ++ ")")
  | .closed code stdout stderr =>
    if code ≠ 0 then
      .error (if stderr = "" then "engram adapter exited with code " ++ toString code else stderr)
    else
      match parseJson (if stdout = "" then "\x7b\x7d" else stdout) with
      | some j => .ok j
      | none => .error "engram adapter returned invalid JSON"

/-- Test performed by create on the parsed health payload
(engram-manager.ts line 52): health.status?.backend_available === false,
with JavaScript optional chaining (a nullish or non-object status yields
undefined, which is not strictly equal to false). -/
def statusBackendAvailableEqFalse (health : Json) : Bool :=
  match health.getField? "status" with
  | some s =>
    match s.getField? "backend_available" with
    | some (.bool false) => true
    | _ => false
  | none => false

/-- Embedding of EngramMemoryManager.create (engram-manager.ts lines 35-61),
the explicit-options variant used by the search-manager call site: resolve
the options (an empty command string is falsy, so it falls back to the
default, and a missing timeout takes the default), run the health exec, and
return null — never raise — when the exec rejects (caught), when the parsed
payload is falsy, or when status.backend_available is strictly false. -/
def EngramMemoryManager.create (workspaceDir : String) (command : Option String)
    (timeoutMs : Option Nat) (healthOutcome : ProcOutcome) : Option EngramOpts :=
  let opts : EngramOpts :=
    { workspaceDir := workspaceDir
      command :=
        match command with
        | some c => if c = "" then DEFAULT_COMMAND else c
        | none => DEFAULT_COMMAND
      timeoutMs :=
        match timeoutMs with
        | some t => t
        | none => DEFAULT_TIMEOUT_MS }
  match EngramMemoryManager.exec "health" healthOutcome with
  | .error _ => none
  | .ok health =>
    if !health.truthy || statusBackendAvailableEqFalse health then none else some opts

/-- Access response.data?.key with JavaScript optional chaining: a nullish
or non-object data yields undefined. -/
def dataGet (response : Json) (key : String) : Option Json :=
  match response.getField? "data" with
  | some d => d.getField? key
  | none => none

/-- Mapping of one results[] entry to a SearchResult (engram-manager.ts
lines 73-80): path is String(entry.id ?? entry.path ?? "MEMORY.md"), the
line numbers are always 1, score is Number(entry.score ?? 0), snippet is
String(entry.snippet ?? ""), source is always "memory". -/
def mapSearchEntry (entry : Json) : SearchResult :=
  { path := jsStr (coalesce (entry.getField? "id") (coalesce (entry.getField? "path") (.str "MEMORY.md")))
    startLine := 1
    endLine := 1
    score := jsNum (coalesce (entry.getField? "score") (.num 0))
    snippet := jsStr (coalesce (entry.getField? "snippet") (.str ""))
    source := "memory" }

/-- Result mapping of EngramMemoryManager.search (engram-manager.ts lines
71-80) applied to a parsed response: response.data?.results ?? [] — a
missing or nullish results field yields the empty list; an array maps
entrywise; the unchecked TypeScript cast means a present non-array value
crashes at the .map call with a TypeError, modelled as an error. -/
def searchOfResponse (response : Json) : Except String (List SearchResult) :=
  match dataGet response "results" with
  | none => .ok []
  | some .null => .ok []
  | some (.arr xs) => .ok (xs.map mapSearchEntry)
  | some _ => .error "results.map is not a function"

/-- Array.prototype.join with a newline separator, as used on data.content:
nullish elements render empty, others through String(). -/
def joinContentLines : List Json → String
  | [] => ""
  | [x] =>
    match x with
    | .null => ""
    | v => jsStr v
  | x :: y :: xs =>
    (match x with
     | .null => ""
     | v => jsStr v) ++ "\n" ++ joinContentLines (y :: xs)

/-- Result mapping of EngramMemoryManager.readFile (engram-manager.ts lines
88-90) applied to a parsed response: data.content ?? [] rejoined with
newlines, echoing the requested path; a present non-array content crashes
at .join, modelled as an error. -/
def readFileOfResponse (response : Json) (relPath : String) :
    Except String FileReadResult :=
  match dataGet response "content" with
  | none => .ok { text := "", path := relPath }
  | some .null => .ok { text := "", path := relPath }
  | some (.arr xs) => .ok { text := joinContentLines xs, path := relPath }
  | some _ => .error "lines.join is not a function"

/-- Full search call of the subprocess adapter: one exec with the search
subcommand, then the result mapping (engram-manager.ts lines 67-81). -/
def EngramMemoryManager.search (outcome : ProcOutcome) :
    Except String (List SearchResult) :=
  match EngramMemoryManager.exec "search" outcome with
  | .error e => .error e
  | .ok resp => searchOfResponse resp

/-- Full readFile call of the subprocess adapter: one exec with the fetch
subcommand, then the content join (engram-manager.ts lines 83-91). -/
def EngramMemoryManager.readFile (relPath : String) (outcome : ProcOutcome) :
    Except String FileReadResult :=
  match EngramMemoryManager.exec "fetch" outcome with
  | .error e => .error e
  | .ok resp => readFileOfResponse resp relPath

/-- Key-order comparator on object fields: compare the keys with the total
string order (search-manager.ts line 249 sorts the key array; sorting the
key-value pairs by key is the same operation on objects, whose keys are
unique). -/
def fieldLe (p q : String × Json) : Bool := strLe p.1 q.1

mutual
/-- Embedding of sortValue (search-manager.ts lines 243-254): arrays map
recursively, objects are rebuilt with their fields sorted by key and their
values sorted recursively, scalars pass through.  The source sorts the key
array and then looks each value up; on objects (unique keys) that equals
sorting the pairs by key after recursing into the values. -/
def sortValue : Json → Json
  | .null => .null
  | .bool b => .bool b
  | .num q => .num q
  | .str s => .str s
  | .arr xs => .arr (sortList xs)
  | .obj fs => .obj ((sortFields fs).mergeSort fieldLe)

/-- Recursive sortValue over array elements. -/
def sortList : List Json → List Json
  | [] => []
  | x :: xs => sortValue x :: sortList xs

/-- Recursive sortValue over object field values (keys unchanged). -/
def sortFields : List (String × Json) → List (String × Json)
  | [] => []
  | (k, v) :: fs => (k, sortValue v) :: sortFields fs
end

/-- JSON string-literal escaping as performed by JSON.stringify. -/
def escapeJsonChar (c : Char) : String :=
  if c = '"' then "\\\""
  else if c = '\\' then "\\\\"
  else if c = '\n' then "\\n"
  else if c = '\r' then "\\r"
  else if c = '\t' then "\\t"
  else String.singleton c

/-- Escaped body of a JSON string literal. -/
def escapeJsonString (s : String) : String :=
  s.data.foldl (fun acc c => acc ++ escapeJsonChar c) ""

mutual
/-- Embedding of JSON.stringify on the values produced by sortValue
(search-manager.ts line 240). -/
def stringify : Json → String
  | .null => "null"
  | .bool b => cond b "true" "false"
  | .num q => ratToString q
  | .str s => "\"" ++ escapeJsonString s ++ "\""
  | .arr xs => "[" ++ stringifyList xs ++ "]"
  | .obj fs => "\x7b" ++ stringifyFields fs ++ "\x7d"

/-- Comma-separated stringification of array elements. -/
def stringifyList : List Json → String
  | [] => ""
  | [x] => stringify x
  | x :: y :: xs => stringify x ++ "," ++ stringifyList (y :: xs)

/-- Comma-separated stringification of object members. -/
def stringifyFields : List (String × Json) → String
  | [] => ""
  | [(k, v)] => "\"" ++ escapeJsonString k ++ "\":" ++ stringify v
  | (k, v) :: p :: fs =>
    "\"" ++ escapeJsonString k ++ "\":" ++ stringify v ++ "," ++ stringifyFields (p :: fs)
end

/-- Embedding of stableSerialize (search-manager.ts lines 239-241): the
canonical fingerprint string of a configuration value. -/
def stableSerialize (value : Json) : String := stringify (sortValue value)

/-- Embedding of buildPrimaryCacheKey (search-manager.ts lines 235-237). -/
def buildPrimaryCacheKey (agentId : String) (backend : String) (config : Json) : String :=
  agentId ++ ":" ++ backend ++ ":" ++ stableSerialize config

mutual
/-- Structural equality of two JSON values up to object key order, the
hypothesis of the fingerprint claim: scalars must be equal, arrays must
match pointwise, and objects must have the same number of fields with each
field of the left object bound (under its key) in the right object to a
structurally equal value. -/
def structEq : Json → Json → Bool
  | .null, .null => true
  | .bool a, .bool b => decide (a = b)
  | .num a, .num b => decide (a = b)
  | .str a, .str b => decide (a = b)
  | .arr xs, .arr ys => structEqList xs ys
  | .obj fs, .obj gs => decide (fs.length = gs.length) && structEqFields fs gs
  | _, _ => false

/-- Pointwise structural equality of array elements. -/
def structEqList : List Json → List Json → Bool
  | [], [] => true
  | x :: xs, y :: ys => structEq x y && structEqList xs ys
  | _, _ => false

/-- Each left field is bound in the right field list to a structurally
equal value. -/
def structEqFields : List (String × Json) → List (String × Json) → Bool
  | [], _ => true
  | (k, v) :: fs, gs =>
    (match lookupField gs k with
     | some w => structEq v w
     | none => false) && structEqFields fs gs
end

/-- Keys of a field list are pairwise distinct (JavaScript objects cannot
carry duplicate keys, so every configuration object satisfies this). -/
def keysNodup : List (String × Json) → Bool
  | [] => true
  | (k, _) :: fs => !(fs.any fun p => decide (p.1 = k)) && keysNodup fs

mutual
/-- Well-formedness of a JSON value as the image of a JavaScript object:
every object in it has pairwise-distinct keys. -/
def jsonWF : Json → Bool
  | .null => true
  | .bool _ => true
  | .num _ => true
  | .str _ => true
  | .arr xs => listWF xs
  | .obj fs => keysNodup fs && fieldsWF fs

/-- Well-formedness of every array element. -/
def listWF : List Json → Bool
  | [] => true
  | x :: xs => jsonWF x && listWF xs

/-- Well-formedness of every field value. -/
def fieldsWF : List (String × Json) → Bool
  | [] => true
  | (_, v) :: fs => jsonWF v && fieldsWF fs
end

/-- Options object of a search call (query is passed separately):
maxResults, minScore and the session-scoped sessionKey. -/
structure SearchOpts where
  maxResults : Option Nat
  minScore : Option Rat
  sessionKey : Option String
deriving DecidableEq, Repr

/-- Result of probeEmbeddingAvailability. -/
structure ProbeResult where
  ok : Bool
  error : Option String
deriving DecidableEq, Repr

/-- Fallback annotation attached to a degraded status (search-manager.ts
line 151): the backend the decorator fell back from, and the recorded
reason. -/
structure FallbackInfo where
  fromBackend : String
  reason : String
deriving DecidableEq, Repr

/-- Status report of a provider: provider-specific fields are opaque to the
decorator and modelled by the info string, plus the custom object and the
fallback annotation that the decorator reads and writes. -/
structure StatusReport where
  info : String
  custom : Option Json
  fallback : Option FallbackInfo
deriving Repr

/-- Mutable state of one FallbackMemoryManager instance
(search-manager.ts lines 96-100): the lazily constructed fallback handle
(identified by a number, its behaviour being supplied per call by the
environment), the degrade flag, the recorded primary error, and the
single-shot eviction guard.  The evictCount field additionally records how
many times the onClose callback has actually been invoked, so that the
at-most-once eviction guarantee can be stated. -/
structure FallbackState where
  fallback : Option Nat
  primaryFailed : Bool
  lastError : Option String
  cacheEvicted : Bool
  evictCount : Nat
deriving DecidableEq, Repr

/-- State of a freshly constructed decorator. -/
def initialFallbackState : FallbackState :=
  { fallback := none, primaryFailed := false, lastError := none,
    cacheEvicted := false, evictCount := 0 }

/-- Embedding of evictCacheEntry (search-manager.ts lines 226-232): invoke
the onClose callback unless the guard is already set; the callback
invocation is recorded in evictCount. -/
def evictCacheEntry (s : FallbackState) : FallbackState :=
  if s.cacheEvicted then s
  else { s with cacheEvicted := true, evictCount := s.evictCount + 1 }

/-- Embedding of ensureFallback (search-manager.ts lines 213-224): return
the memoized fallback if present; otherwise run the factory — whose outcome
for this call is supplied by the environment: it can throw (error), yield
null, or yield a handle — memoizing only a successful handle.  A throwing
factory propagates its exception; a null result is returned without being
memoized. -/
def ensureFallback (factory : Except String (Option Nat)) (s : FallbackState) :
    Except String (Option Nat) × FallbackState :=
  match s.fallback with
  | some fb => (.ok (some fb), s)
  | none =>
    match factory with
    | .error e => (.error e, s)
    | .ok none => (.ok none, s)
    | .ok (some fb) => (.ok (some fb), { s with fallback := some fb })

/-- Degraded tail of search (search-manager.ts lines 128-132): construct
the fallback if needed and delegate to its search with the unchanged query
and options, raising lastError (or the generic message) when no fallback
can be constructed. -/
def searchViaFallback (factory : Except String (Option Nat))
    (fbSearch : Nat → String → SearchOpts → Except String (List SearchResult))
    (q : String) (opts : SearchOpts) (s : FallbackState) :
    Except String (List SearchResult) × FallbackState :=
  match ensureFallback factory s with
  | (.error e, s1) => (.error e, s1)
  | (.ok (some fb), s1) => (fbSearch fb q opts, s1)
  | (.ok none, s1) =>
    (.error (match s1.lastError with
             | some e => e
             | none => "memory search unavailable"), s1)

/-- Embedding of FallbackMemoryManager.search (search-manager.ts lines
111-133).  The primary's behaviour is the function pSearch (what
primary.search would do on a given query and options); on its first
failure the decorator records the error, flips the degrade flag, closes the
primary (best effort, swallowed, no state effect) and fires the eviction
guard, then serves the same call through the fallback. -/
def FallbackMemoryManager.search
    (pSearch : String → SearchOpts → Except String (List SearchResult))
    (factory : Except String (Option Nat))
    (fbSearch : Nat → String → SearchOpts → Except String (List SearchResult))
    (q : String) (opts : SearchOpts) (s : FallbackState) :
    Except String (List SearchResult) × FallbackState :=
  if s.primaryFailed = false then
    match pSearch q opts with
    | .ok r => (.ok r, s)
    | .error e =>
      searchViaFallback factory fbSearch q opts
        (evictCacheEntry { s with primaryFailed := true, lastError := some e })
  else
    searchViaFallback factory fbSearch q opts s

/-- Embedding of FallbackMemoryManager.readFile (search-manager.ts lines
135-144): while primary-active, delegate to the primary — a failure
propagates without touching any state; once degraded, construct and
delegate to the fallback, raising lastError when it cannot be
constructed. -/
def FallbackMemoryManager.readFile (pRead : Except String FileReadResult)
    (factory : Except String (Option Nat)) (fbRead : Nat → Except String FileReadResult)
    (s : FallbackState) : Except String FileReadResult × FallbackState :=
  if s.primaryFailed = false then (pRead, s)
  else
    match ensureFallback factory s with
    | (.error e, s1) => (.error e, s1)
    | (.ok (some fb), s1) => (fbRead fb, s1)
    | (.ok none, s1) =>
      (.error (match s1.lastError with
               | some e => e
               | none => "memory read unavailable"), s1)

/-- Field-list part of Json.setField. -/
def setFieldList : List (String × Json) → String → Json → List (String × Json)
  | [], k, v => [(k, v)]
  | (k0, w) :: fs, k, v =>
    if k0 = k then (k0, v) :: fs else (k0, w) :: setFieldList fs k v

/-- Object spread update: replace the binding of an existing key in place
(JavaScript spread keeps the original position of an overwritten key), or
append a new binding. -/
def Json.setField (j : Json) (key : String) (v : Json) : Json :=
  match j with
  | .obj fs => .obj (setFieldList fs key v)
  | other => other

/-- Annotation applied to a status report when degraded (search-manager.ts
lines 151-172): attach the fallback info and extend the custom object with
the disabled-fallback marker. -/
def annotateStatus (backendName : String) (lastError : Option String)
    (st : StatusReport) : StatusReport :=
  let reason :=
    match lastError with
    | some e => e
    | none => "unknown"
  { st with
    fallback := some { fromBackend := backendName, reason := reason }
    custom := some (Json.setField
      (match st.custom with
       | some c => c
       | none => .obj [])
      "fallback" (.obj [("disabled", .bool true), ("reason", .str reason)])) }

/-- Embedding of FallbackMemoryManager.status (search-manager.ts lines
146-173): while primary-active return the primary's status verbatim; when
degraded return the fallback's status if one was constructed, otherwise the
primary's current status, in both cases annotated. -/
def FallbackMemoryManager.status (backendName : String) (pStatus : StatusReport)
    (fbStatus : Nat → StatusReport) (s : FallbackState) : StatusReport :=
  if s.primaryFailed = false then pStatus
  else
    match s.fallback with
    | some fb => annotateStatus backendName s.lastError (fbStatus fb)
    | none => annotateStatus backendName s.lastError pStatus

/-- Embedding of FallbackMemoryManager.sync (search-manager.ts lines
175-186): while primary-active delegate to the primary's optional sync (a
missing method is a no-op); when degraded construct the fallback if needed
and delegate to its optional sync, where a missing fallback or missing
method is a no-op. -/
def FallbackMemoryManager.sync (pSync : Option (Except String Unit))
    (factory : Except String (Option Nat)) (fbSync : Nat → Option (Except String Unit))
    (s : FallbackState) : Except String Unit × FallbackState :=
  if s.primaryFailed = false then
    (match pSync with
     | some r => r
     | none => .ok (), s)
  else
    match ensureFallback factory s with
    | (.error e, s1) => (.error e, s1)
    | (.ok (some fb), s1) =>
      (match fbSync fb with
       | some r => r
       | none => .ok (), s1)
    | (.ok none, s1) => (.ok (), s1)

/-- Embedding of FallbackMemoryManager.probeEmbeddingAvailability
(search-manager.ts lines 188-197). -/
def FallbackMemoryManager.probeEmbeddingAvailability
    (pProbe : Except String ProbeResult) (factory : Except String (Option Nat))
    (fbProbe : Nat → Except String ProbeResult) (s : FallbackState) :
    Except String ProbeResult × FallbackState :=
  if s.primaryFailed = false then (pProbe, s)
  else
    match ensureFallback factory s with
    | (.error e, s1) => (.error e, s1)
    | (.ok (some fb), s1) => (fbProbe fb, s1)
    | (.ok none, s1) =>
      (.ok { ok := false
             error := some (match s1.lastError with
                            | some e => e
                            | none => "memory embeddings unavailable") }, s1)

/-- Embedding of FallbackMemoryManager.probeVectorAvailability
(search-manager.ts lines 199-205): when degraded, a missing fallback
answers false. -/
def FallbackMemoryManager.probeVectorAvailability (pVec : Except String Bool)
    (factory : Except String (Option Nat)) (fbVec : Nat → Except String Bool)
    (s : FallbackState) : Except String Bool × FallbackState :=
  if s.primaryFailed = false then (pVec, s)
  else
    match ensureFallback factory s with
    | (.error e, s1) => (.error e, s1)
    | (.ok (some fb), s1) => (fbVec fb, s1)
    | (.ok none, s1) => (.ok false, s1)

/-- Embedding of FallbackMemoryManager.close (search-manager.ts lines
207-211): close the primary (its optional close may be missing, may
succeed, or may throw — a throw propagates before anything else happens),
then the constructed fallback if any, then fire the eviction guard. -/
def FallbackMemoryManager.close (pClose : Option (Except String Unit))
    (fbClose : Nat → Option (Except String Unit)) (s : FallbackState) :
    Except String Unit × FallbackState :=
  match pClose with
  | some (.error e) => (.error e, s)
  | _ =>
    match s.fallback with
    | some fb =>
      match fbClose fb with
      | some (.error e) => (.error e, s)
      | _ => (.ok (), evictCacheEntry s)
    | none => (.ok (), evictCacheEntry s)

/-- One call on a decorator instance, together with the behaviour of the
primary, the fallback factory and the fallback for that call (the
environment of the call). -/
inductive FallbackOp where
  | search (pSearch : String → SearchOpts → Except String (List SearchResult))
      (factory : Except String (Option Nat))
      (fbSearch : Nat → String → SearchOpts → Except String (List SearchResult))
      (q : String) (opts : SearchOpts)
  | readFile (pRead : Except String FileReadResult)
      (factory : Except String (Option Nat)) (fbRead : Nat → Except String FileReadResult)
  | statusCall (backendName : String) (pStatus : StatusReport) (fbStatus : Nat → StatusReport)
  | sync (pSync : Option (Except String Unit)) (factory : Except String (Option Nat))
      (fbSync : Nat → Option (Except String Unit))
  | probeEmbedding (pProbe : Except String ProbeResult)
      (factory : Except String (Option Nat)) (fbProbe : Nat → Except String ProbeResult)
  | probeVector (pVec : Except String Bool) (factory : Except String (Option Nat))
      (fbVec : Nat → Except String Bool)
  | close (pClose : Option (Except String Unit)) (fbClose : Nat → Option (Except String Unit))

/-- State transition of one call (status is synchronous and read-only, so
it leaves the state unchanged). -/
def runOp : FallbackOp → FallbackState → FallbackState
  | .search pS f fbS q opts, s => (FallbackMemoryManager.search pS f fbS q opts s).2
  | .readFile pR f fbR, s => (FallbackMemoryManager.readFile pR f fbR s).2
  | .statusCall _ _ _, s => s
  | .sync pS f fbS, s => (FallbackMemoryManager.sync pS f fbS s).2
  | .probeEmbedding pP f fbP, s => (FallbackMemoryManager.probeEmbeddingAvailability pP f fbP s).2
  | .probeVector pV f fbV, s => (FallbackMemoryManager.probeVectorAvailability pV f fbV s).2
  | .close pC fbC, s => (FallbackMemoryManager.close pC fbC s).2

/-- State after a sequence of calls on one decorator instance. -/
def runOps : List FallbackOp → FallbackState → FallbackState
  | [], s => s
  | op :: ops, s => runOps ops (runOp op s)

/-- Association-list lookup for the provider cache (Map.get). -/
def lookupAssoc : List (String × Nat) → String → Option Nat
  | [], _ => none
  | (k, v) :: rest, key => if k = key then some v else lookupAssoc rest key

/-- Association-list deletion for the provider cache (Map.delete). -/
def eraseAssoc : List (String × Nat) → String → List (String × Nat)
  | [], _ => []
  | (k, v) :: rest, key =>
    if k = key then eraseAssoc rest key else (k, v) :: eraseAssoc rest key

/-- Effect of the decorator's eviction callback on the provider cache
across one transition: the onClose closure installed by
getMemorySearchManager (search-manager.ts line 48) deletes exactly its own
cache key, and it runs exactly when evictCacheEntry passed its guard,
observable as the evictCount increment. -/
def cacheAfterEvict (before after : FallbackState) (key : String)
    (cache : List (String × Nat)) : List (String × Nat) :=
  if before.evictCount < after.evictCount then eraseAssoc cache key else cache


/-- Resolved backend configuration as consumed by getMemorySearchManager
(the resolver itself is an external collaborator): the selected backend
name and the optional per-backend config objects. -/
structure ResolvedBackend where
  backend : String
  qmd : Option Json
  engram : Option Json

/-- Per-call environment of getMemorySearchManager: what each provider
constructor would do on this call.  A create outcome of ok true stands for
a live handle, ok false for null, and error for a thrown construction
error; the builtin MemoryIndexManager.get returns a manager identity of its
own or throws. -/
structure AcquireEnv where
  qmdCreate : Except String Bool
  engramCreate : Except String Bool
  builtinGet : Except String Nat

/-- Module state around getMemorySearchManager: the PRIMARY_MANAGER_CACHE
map (search-manager.ts line 12) from cache key to the identity of the
cached decorator, a counter supplying fresh decorator identities, and
ghost counters recording how often each provider constructor has been
invoked. -/
structure AcquireState where
  cache : List (String × Nat)
  nextId : Nat
  qmdCreates : Nat
  engramCreates : Nat
deriving DecidableEq, Repr

/-- Result value of getMemorySearchManager: the manager (by identity) or
its absence together with the reported error. -/
structure AcquireResult where
  manager : Option Nat
  error : Option String
deriving DecidableEq, Repr

/-- Builtin tail of getMemorySearchManager (search-manager.ts lines 86-93):
MemoryIndexManager.get, with a thrown error surfaced as an error value next
to an absent manager. -/
def acquireBuiltin (env : AcquireEnv) (st : AcquireState) : AcquireResult × AcquireState :=
  match env.builtinGet with
  | .ok id => ({ manager := some id, error := none }, st)
  | .error e => ({ manager := none, error := some e }, st)

/-- Engram branch of getMemorySearchManager (search-manager.ts lines
59-84): when the resolved backend is engram with a config present, invoke
EngramMemoryManager.create; a live handle is wrapped in a fresh
FallbackMemoryManager and returned — it is NOT stored in the cache, and the
wrapper is built without an onClose callback; a null handle or a thrown
error falls through to the builtin tail. -/
def acquireEngramStep (resolved : ResolvedBackend) (env : AcquireEnv)
    (st : AcquireState) : AcquireResult × AcquireState :=
  if resolved.backend = "engram" ∧ resolved.engram.isSome then
    let st1 := { st with engramCreates := st.engramCreates + 1 }
    match env.engramCreate with
    | .ok true =>
      ({ manager := some st1.nextId, error := none }, { st1 with nextId := st1.nextId + 1 })
    | _ => acquireBuiltin env st1
  else acquireBuiltin env st

/-- Embedding of getMemorySearchManager (search-manager.ts lines 19-94).
The qmd branch consults the PRIMARY_MANAGER_CACHE under
buildPrimaryCacheKey and returns a hit unchanged; on a miss it invokes
QmdMemoryManager.create, and on a live handle stores and returns a fresh
decorator whose eviction callback deletes exactly this key; a null handle
or a thrown error falls through (the backend being qmd, the engram branch
does not fire, so control reaches the builtin tail). -/
def getMemorySearchManager (agentId : String) (resolved : ResolvedBackend)
    (env : AcquireEnv) (st : AcquireState) : AcquireResult × AcquireState :=
  if resolved.backend = "qmd" then
    match resolved.qmd with
    | some c =>
      let key := buildPrimaryCacheKey agentId "qmd" c
      match lookupAssoc st.cache key with
      | some id => ({ manager := some id, error := none }, st)
      | none =>
        let st1 := { st with qmdCreates := st.qmdCreates + 1 }
        match env.qmdCreate with
        | .ok true =>
          ({ manager := some st1.nextId, error := none },
           { st1 with nextId := st1.nextId + 1, cache := (key, st1.nextId) :: st1.cache })
        | _ => acquireEngramStep resolved env st1
    | none => acquireEngramStep resolved env st
  else acquireEngramStep resolved env st

theorem char_eq_of_toNat_eq {a b : Char} (h : a.toNat = b.toNat) : a = b := by
  apply Char.ext
  apply UInt32.ext
  exact h

theorem charListLe_total : ∀ a b, (charListLe a b || charListLe b a) = true
  | [], _ => by simp [charListLe]
  | _ :: _, [] => by simp [charListLe]
  | a :: as, b :: bs => by
    by_cases h1 : a.toNat < b.toNat
    · simp [charListLe, h1]
    · by_cases h2 : b.toNat < a.toNat
      · simp [charListLe, h1, h2]
      · simpa [charListLe, h1, h2] using charListLe_total as bs

theorem charListLe_trans : ∀ a b c, charListLe a b = true → charListLe b c = true →
    charListLe a c = true
  | [], _, _, _, _ => by simp [charListLe]
  | _ :: _, [], _, h1, _ => by simp [charListLe] at h1
  | _ :: _, _ :: _, [], _, h2 => by simp [charListLe] at h2
  | a :: as, b :: bs, c :: cs, h1, h2 => by
    simp only [charListLe] at h1 h2 ⊢
    split_ifs at h1 h2 ⊢ <;>
      first
      | rfl
      | exact Bool.noConfusion h1
      | exact Bool.noConfusion h2
      | exact charListLe_trans as bs cs h1 h2
      | (exfalso; omega)

theorem charListLe_antisymm : ∀ a b, charListLe a b = true → charListLe b a = true → a = b
  | [], [], _, _ => rfl
  | [], _ :: _, _, h2 => by simp [charListLe] at h2
  | _ :: _, [], h1, _ => by simp [charListLe] at h1
  | a :: as, b :: bs, h1, h2 => by
    simp only [charListLe] at h1 h2
    split_ifs at h1 h2 <;>
      first
      | exact Bool.noConfusion h1
      | exact Bool.noConfusion h2
      | (exfalso; omega)
      | (have hab : a = b := char_eq_of_toNat_eq (by omega)
         rw [hab, charListLe_antisymm as bs h1 h2])

theorem strLe_antisymm {a b : String} (h1 : strLe a b = true) (h2 : strLe b a = true) :
    a = b := by
  have h := charListLe_antisymm _ _ h1 h2
  cases a
  cases b
  exact congrArg String.mk h

theorem fieldLe_trans : ∀ (a b c : String × Json),
    fieldLe a b = true → fieldLe b c = true → fieldLe a c = true :=
  fun _ _ _ h1 h2 => charListLe_trans _ _ _ h1 h2

theorem fieldLe_total : ∀ (a b : String × Json), (fieldLe a b || fieldLe b a) = true :=
  fun _ _ => charListLe_total _ _

theorem sortFields_eq_map : ∀ fs, sortFields fs = fs.map fun p => (p.1, sortValue p.2)
  | [] => rfl
  | (k, v) :: fs => by simp [sortFields, sortFields_eq_map fs]

theorem jsonWF_of_mem_list : ∀ xs x, listWF xs = true → x ∈ xs → jsonWF x = true
  | y :: ys, x, h, hm => by
    simp only [listWF, Bool.and_eq_true] at h
    rcases List.mem_cons.mp hm with rfl | hm
    · exact h.1
    · exact jsonWF_of_mem_list ys x h.2 hm

theorem jsonWF_of_mem_fields : ∀ fs k v, fieldsWF fs = true → (k, v) ∈ fs → jsonWF v = true
  | (k0, v0) :: fs, k, v, h, hm => by
    simp only [fieldsWF, Bool.and_eq_true] at h
    rcases List.mem_cons.mp hm with heq | hm
    · cases heq
      exact h.1
    · exact jsonWF_of_mem_fields fs k v h.2 hm

theorem lookupField_mem : ∀ gs k w, lookupField gs k = some w → (k, w) ∈ gs
  | (k0, v0) :: gs, k, w, h => by
    simp only [lookupField] at h
    by_cases hk : k0 = k
    · subst hk
      rw [if_pos rfl] at h
      cases h
      exact List.mem_cons_self _ _
    · rw [if_neg hk] at h
      exact List.mem_cons_of_mem _ (lookupField_mem gs k w h)

theorem nodup_map_fst_of_keysNodup : ∀ fs, keysNodup fs = true → (fs.map Prod.fst).Nodup
  | [], _ => List.nodup_nil
  | (k, v) :: fs, h => by
    simp only [keysNodup, Bool.and_eq_true, Bool.not_eq_true'] at h
    obtain ⟨hany, hrest⟩ := h
    simp only [List.map_cons, List.nodup_cons]
    refine ⟨fun hmem => ?_, nodup_map_fst_of_keysNodup fs hrest⟩
    obtain ⟨p, hp, hpk⟩ := List.mem_map.mp hmem
    have : fs.any (fun p => decide (p.1 = k)) = true :=
      List.any_eq_true.mpr ⟨p, hp, by simp [hpk]⟩
    rw [this] at hany
    exact Bool.noConfusion hany

theorem structEqFields_lookup : ∀ fs gs k v, structEqFields fs gs = true → (k, v) ∈ fs →
    ∃ w, lookupField gs k = some w ∧ structEq v w = true
  | (k0, v0) :: fs, gs, k, v, h, hm => by
    simp only [structEqFields, Bool.and_eq_true] at h
    obtain ⟨hhead, hrest⟩ := h
    rcases List.mem_cons.mp hm with heq | hm
    · obtain ⟨h1, h2⟩ := Prod.mk.inj heq
      rw [h1, h2]
      revert hhead
      cases hlk : lookupField gs k0 with
      | none => intro hhead; exact Bool.noConfusion hhead
      | some w => intro hhead; exact ⟨w, rfl, hhead⟩
    · exact structEqFields_lookup fs gs k v hrest hm

theorem sortValue_congr_aux : ∀ (n : Nat) (a b : Json), sizeOf a ≤ n → jsonWF a = true →
    jsonWF b = true → structEq a b = true → sortValue a = sortValue b := by
  intro n
  induction n with
  | zero =>
    intro a b hs _ _ _
    exact absurd hs (by cases a <;> simp)
  | succ n ih =>
    intro a b hs ha hb h
    cases a <;> cases b <;> simp only [structEq, Bool.false_eq_true] at h
    case null.null => rfl
    case bool.bool x y => rw [of_decide_eq_true h]
    case num.num x y => rw [of_decide_eq_true h]
    case str.str x y => rw [of_decide_eq_true h]
    case arr.arr xs ys =>
      have key : ∀ xs ys, sizeOf xs ≤ n → listWF xs = true → listWF ys = true →
          structEqList xs ys = true → sortList xs = sortList ys := by
        intro xs
        induction xs with
        | nil =>
          intro ys _ _ _ hse
          cases ys with
          | nil => rfl
          | cons y ys => simp [structEqList] at hse
        | cons x xs ihx =>
          intro ys hsz hwx hwy hse
          cases ys with
          | nil => simp [structEqList] at hse
          | cons y ys =>
            simp only [structEqList, Bool.and_eq_true] at hse
            simp only [listWF, Bool.and_eq_true] at hwx hwy
            simp only [List.cons.sizeOf_spec] at hsz
            simp only [sortList]
            rw [ih x y (by omega) hwx.1 hwy.1 hse.1, ihx ys (by omega) hwx.2 hwy.2 hse.2]
      simp only [jsonWF] at ha hb
      simp only [Json.arr.sizeOf_spec] at hs
      simp only [sortValue]
      rw [key xs ys (by omega) ha hb h]
    case obj.obj fs gs =>
      simp only [Bool.and_eq_true, decide_eq_true_eq] at h
      obtain ⟨hlen, hfields⟩ := h
      simp only [jsonWF, Bool.and_eq_true] at ha hb
      obtain ⟨hndf, hwf⟩ := ha
      obtain ⟨hndg, hwg⟩ := hb
      simp only [Json.obj.sizeOf_spec] at hs
      simp only [sortValue]
      congr 1
      have hsub : sortFields fs ⊆ sortFields gs := by
        intro p hp
        rw [sortFields_eq_map] at hp
        obtain ⟨⟨k, v⟩, hkv, hpe⟩ := List.mem_map.mp hp
        obtain ⟨w, hlk, hsw⟩ := structEqFields_lookup fs gs k v hfields hkv
        have hmemw : (k, w) ∈ gs := lookupField_mem gs k w hlk
        have hv : sizeOf v ≤ n := by
          have h1 := List.sizeOf_lt_of_mem hkv
          simp only [Prod.mk.sizeOf_spec] at h1
          omega
        have hvw : sortValue v = sortValue w :=
          ih v w hv (jsonWF_of_mem_fields fs k v hwf hkv)
            (jsonWF_of_mem_fields gs k w hwg hmemw) hsw
        rw [sortFields_eq_map]
        refine List.mem_map.mpr ⟨(k, w), hmemw, ?_⟩
        simp only at hpe ⊢
        rw [← hvw, hpe]
      have hkeysf : ((sortFields fs).map Prod.fst).Nodup := by
        rw [sortFields_eq_map, List.map_map]
        exact nodup_map_fst_of_keysNodup fs hndf
      have hkeysg : ((sortFields gs).map Prod.fst).Nodup := by
        rw [sortFields_eq_map, List.map_map]
        exact nodup_map_fst_of_keysNodup gs hndg
      have hnodupf : (sortFields fs).Nodup := hkeysf.of_map _
      have hlenFG : (sortFields fs).length = (sortFields gs).length := by
        rw [sortFields_eq_map, sortFields_eq_map, List.length_map, List.length_map, hlen]
      have hperm : (sortFields fs).Perm (sortFields gs) :=
        (hnodupf.subperm hsub).perm_of_length_le (le_of_eq hlenFG.symm)
      have hsortedf := List.sorted_mergeSort fieldLe_trans fieldLe_total
        (sortFields fs)
      have hsortedg := List.sorted_mergeSort fieldLe_trans fieldLe_total
        (sortFields gs)
      have hpermF : ((sortFields fs).mergeSort fieldLe).Perm (sortFields fs) :=
        List.mergeSort_perm _ _
      have hpermG : ((sortFields gs).mergeSort fieldLe).Perm (sortFields gs) :=
        List.mergeSort_perm _ _
      have hkeysF : (((sortFields fs).mergeSort fieldLe).map Prod.fst).Nodup :=
        ((hpermF.map Prod.fst).symm).nodup hkeysf
      have hkeysG : (((sortFields gs).mergeSort fieldLe).map Prod.fst).Nodup :=
        ((hpermG.map Prod.fst).symm).nodup hkeysg
      have hstrict : ∀ (L : List (String × Json)),
          L.Pairwise (fun p q => fieldLe p q = true) → (L.map Prod.fst).Nodup →
          L.Pairwise (fun p q => fieldLe p q = true ∧ p.1 ≠ q.1) := by
        intro L hle hnd
        have hne : L.Pairwise fun p q => p.1 ≠ q.1 := List.pairwise_map.mp hnd
        exact hle.and hne
      haveI : IsAntisymm (String × Json) (fun p q => fieldLe p q = true ∧ p.1 ≠ q.1) :=
        ⟨fun p q h1 h2 => absurd (strLe_antisymm h1.1 h2.1) h1.2⟩
      exact List.eq_of_perm_of_sorted
        (hpermF.trans (hperm.trans hpermG.symm))
        (hstrict _ hsortedf hkeysF)
        (hstrict _ hsortedg hkeysG)

theorem sortValue_congr (a b : Json) (ha : jsonWF a = true) (hb : jsonWF b = true)
    (h : structEq a b = true) : sortValue a = sortValue b :=
  sortValue_congr_aux (sizeOf a) a b le_rfl ha hb h

/-- Claim C4: for all resolved config values A and B that are structurally
equal but whose object keys were inserted or listed in different orders (at
any nesting depth), the fingerprint function produces identical strings, so
both map to the same cache key.  (Well-formedness asks only that objects
have no duplicate keys, which JavaScript objects guarantee.) -/
theorem claim4_fingerprint_stable : ∀ (a b : Json) (agentId backend : String),
    jsonWF a = true → jsonWF b = true → structEq a b = true →
    stableSerialize a = stableSerialize b ∧
      buildPrimaryCacheKey agentId backend a = buildPrimaryCacheKey agentId backend b := by
  intro a b agentId backend ha hb h
  have hsv := sortValue_congr a b ha hb h
  refine ⟨?_, ?_⟩
  · unfold stableSerialize
    rw [hsv]
  · unfold buildPrimaryCacheKey stableSerialize
    rw [hsv]

/-- Witness for claim C4 at a concrete pair of configs that differ in key
order at the top level and inside a nested object. -/
theorem claim4_witness :
    jsonWF (Json.obj [("command", .str "qmd"),
      ("paths", .obj [("workspace", .str "/w"), ("db", .str "/d")])]) = true ∧
    jsonWF (Json.obj [("paths", .obj [("db", .str "/d"), ("workspace", .str "/w")]),
      ("command", .str "qmd")]) = true ∧
    structEq (Json.obj [("command", .str "qmd"),
        ("paths", .obj [("workspace", .str "/w"), ("db", .str "/d")])])
      (Json.obj [("paths", .obj [("db", .str "/d"), ("workspace", .str "/w")]),
        ("command", .str "qmd")]) = true ∧
    buildPrimaryCacheKey "main" "qmd"
        (Json.obj [("command", .str "qmd"),
          ("paths", .obj [("workspace", .str "/w"), ("db", .str "/d")])]) =
      buildPrimaryCacheKey "main" "qmd"
        (Json.obj [("paths", .obj [("db", .str "/d"), ("workspace", .str "/w")]),
          ("command", .str "qmd")]) :=
  ⟨by decide, by decide, by decide,
   (claim4_fingerprint_stable _ _ "main" "qmd" (by decide) (by decide) (by decide)).2⟩

theorem coalesce_of_ne_null {v : Json} (d : Json) (h : v ≠ .null) :
    coalesce (some v) d = v := by
  cases v <;> first | rfl | exact absurd rfl h

theorem coalesce_of_nullish {o : Option Json} (d : Json) (h : nullish o = true) :
    coalesce o d = d := by
  match o, h with
  | none, _ => rfl
  | some .null, _ => rfl

/-- Claim C10 (implicit): a subprocess exit with code 0 having written no
standard output at all succeeds with the empty response object (the empty
body is substituted by the empty-object text before parsing), so a search
call returns an empty result sequence and a readFile call returns empty
text, rather than failing with an invalid-response error. -/
theorem claim10_empty_stdout_ok : ∀ (subcommand stderrText relPath : String),
    EngramMemoryManager.exec subcommand (.closed 0 "" stderrText) = .ok (.obj []) ∧
    EngramMemoryManager.search (.closed 0 "" stderrText) = .ok [] ∧
    EngramMemoryManager.readFile relPath (.closed 0 "" stderrText) =
      .ok { text := "", path := relPath } :=
  fun _ _ _ => ⟨rfl, rfl, rfl⟩

/-- Counterexample to claim C7 as stated: the empty accumulated standard
output is not parseable as JSON, yet the zero-exit call succeeds with the
empty object instead of failing with the invalid-response error (the code
substitutes the empty-object text for an empty stdout before parsing). -/
theorem claim7_counterexample :
    parseJson "" = none ∧
    EngramMemoryManager.exec "search" (.closed 0 "" "boom") = .ok (.obj []) :=
  ⟨rfl, rfl⟩

/-- Claim C7 as amended: a non-zero exit fails with the accumulated stderr,
or the generic exited-with-code message when stderr is empty; a zero exit
whose accumulated stdout is nonempty and not parseable as JSON fails with
the invalid-response error (an empty stdout is instead replaced by the
empty-object text and succeeds). -/
theorem claim7_exec_failures : ∀ (subcommand stdoutText stderrText : String) (code : Int),
    (code ≠ 0 →
      EngramMemoryManager.exec subcommand (.closed code stdoutText stderrText) =
        .error (if stderrText = "" then "engram adapter exited with code " ++ toString code
                else stderrText)) ∧
    (stdoutText ≠ "" → parseJson stdoutText = none →
      EngramMemoryManager.exec subcommand (.closed 0 stdoutText stderrText) =
        .error "engram adapter returned invalid JSON") := by
  intro sub out errS code
  constructor
  · intro hc
    simp only [EngramMemoryManager.exec, if_pos hc]
  · intro hne hp
    simp only [EngramMemoryManager.exec]
    rw [if_neg (by simp), if_neg hne, hp]

/-- Witness for claim C7 at concrete inputs: exit code 3 with empty stderr,
and a zero exit with unparseable output. -/
theorem claim7_witness :
    EngramMemoryManager.exec "search" (.closed 3 "out" "") =
      .error "engram adapter exited with code 3" ∧
    EngramMemoryManager.exec "search" (.closed 0 "nope" "") =
      .error "engram adapter returned invalid JSON" :=
  ⟨((claim7_exec_failures "search" "out" "" 3).1 (by decide)).trans (by rfl),
   (claim7_exec_failures "search" "nope" "" 0).2 (by decide) rfl⟩

/-- Counterexample to claim C5 as stated: when the adapter answers the
health request with the valid JSON text null on a zero exit, the request
completes and status.backend_available is not false, yet create declines
(the code additionally requires the parsed payload to be truthy), so
"returns a live handle exactly when the health request completes with
status.backend_available not equal to false" fails at this input. -/
theorem claim5_counterexample :
    EngramMemoryManager.exec "health" (.closed 0 "null" "") = .ok .null ∧
    statusBackendAvailableEqFalse .null = false ∧
    EngramMemoryManager.create "/w" (some "engram-openclaw-adapter") (some 4000)
      (.closed 0 "null" "") = none :=
  ⟨rfl, rfl, rfl⟩

/-- Claim C5 as amended: create returns an absent handle rather than
raising whenever the health subprocess cannot be spawned, times out, exits
non-zero, returns an unparseable payload, or reports
status.backend_available strictly equal to false; and it returns a live
handle exactly when the health request completes with a truthy parsed
payload whose status.backend_available is not strictly false. -/
theorem claim5_create_declines :
    ∀ (wd : String) (cmd : Option String) (tmo : Option Nat) (outcome : ProcOutcome),
    (∀ m, EngramMemoryManager.create wd cmd tmo (.spawnError m) = none) ∧
    (EngramMemoryManager.create wd cmd tmo .timeout = none) ∧
    (∀ code out err, code ≠ 0 →
      EngramMemoryManager.create wd cmd tmo (.closed code out err) = none) ∧
    (∀ out err, parseJson (if out = "" then "\x7b\x7d" else out) = none →
      EngramMemoryManager.create wd cmd tmo (.closed 0 out err) = none) ∧
    (∀ h, EngramMemoryManager.exec "health" outcome = .ok h →
      statusBackendAvailableEqFalse h = true →
      EngramMemoryManager.create wd cmd tmo outcome = none) ∧
    ((EngramMemoryManager.create wd cmd tmo outcome).isSome = true ↔
      ∃ h, EngramMemoryManager.exec "health" outcome = .ok h ∧ h.truthy = true ∧
        statusBackendAvailableEqFalse h = false) := by
  intro wd cmd tmo outcome
  refine ⟨fun m => rfl, rfl, ?_, ?_, ?_, ?_⟩
  · intro code out err hc
    simp only [EngramMemoryManager.create, EngramMemoryManager.exec, if_pos hc]
  · intro out err hp
    simp only [EngramMemoryManager.create, EngramMemoryManager.exec]
    rw [if_neg (by simp), hp]
  · intro h hex hbf
    simp only [EngramMemoryManager.create, hex, hbf, Bool.or_true, if_pos]
  · constructor
    · intro hsome
      unfold EngramMemoryManager.create at hsome
      cases hex : EngramMemoryManager.exec "health" outcome with
      | error e => rw [hex] at hsome; simp at hsome
      | ok h =>
        rw [hex] at hsome
        by_cases ht : h.truthy = true
        · by_cases hb : statusBackendAvailableEqFalse h = true
          · simp [ht, hb] at hsome
          · exact ⟨h, rfl, ht, by simpa using hb⟩
        · simp [show h.truthy = false by simpa using ht] at hsome
    · rintro ⟨h, hex, htr, hbf⟩
      simp [EngramMemoryManager.create, hex, htr, hbf]

/-- Witness for claim C5 at concrete inputs: a non-zero exit declines, and
a completed health request whose status object reports backend_available
false declines. -/
theorem claim5_witness :
    EngramMemoryManager.create "/w" none none (.closed 2 "" "down") = none ∧
    EngramMemoryManager.create "/w" none none
      (.closed 0 "\x7b\"status\":\x7b\"backend_available\":false\x7d\x7d" "") = none :=
  ⟨(claim5_create_declines "/w" none none (.closed 2 "" "down")).2.2.1 2 "" "down" (by decide),
   (claim5_create_declines "/w" none none
      (.closed 0 "\x7b\"status\":\x7b\"backend_available\":false\x7d\x7d" "")).2.2.2.2.1
     (.obj [("status", .obj [("backend_available", .bool false)])]) rfl rfl⟩

/-- Claim C8: for every successful search subprocess response, each
results[] entry maps to a SearchResult whose path is the entry's id, else
its path, else "MEMORY.md" (through the String() coercion the code
applies); whose score is the entry's score coerced by Number(), defaulting
to 0 when absent or null; whose snippet is the entry's snippet coerced by
String(), defaulting to empty; whose startLine and endLine are always 1;
and whose source is always "memory"; an absent (or null) results field
yields the empty result sequence. -/
theorem claim8_search_mapping : ∀ (response : Json),
    ((dataGet response "results" = none ∨ dataGet response "results" = some .null) →
      searchOfResponse response = .ok []) ∧
    ∀ xs, dataGet response "results" = some (.arr xs) →
      searchOfResponse response = .ok (xs.map mapSearchEntry) ∧
      ∀ entry ∈ xs,
        (mapSearchEntry entry).startLine = 1 ∧
        (mapSearchEntry entry).endLine = 1 ∧
        (mapSearchEntry entry).source = "memory" ∧
        (∀ v, entry.getField? "id" = some v → v ≠ .null →
          (mapSearchEntry entry).path = jsStr v) ∧
        (nullish (entry.getField? "id") = true →
          ∀ v, entry.getField? "path" = some v → v ≠ .null →
            (mapSearchEntry entry).path = jsStr v) ∧
        (nullish (entry.getField? "id") = true → nullish (entry.getField? "path") = true →
          (mapSearchEntry entry).path = "MEMORY.md") ∧
        (∀ v, entry.getField? "score" = some v → v ≠ .null →
          (mapSearchEntry entry).score = jsNum v) ∧
        (nullish (entry.getField? "score") = true →
          (mapSearchEntry entry).score = .finite 0) ∧
        (∀ v, entry.getField? "snippet" = some v → v ≠ .null →
          (mapSearchEntry entry).snippet = jsStr v) ∧
        (nullish (entry.getField? "snippet") = true →
          (mapSearchEntry entry).snippet = "") := by
  intro response
  constructor
  · rintro (h | h) <;> simp [searchOfResponse, h]
  · intro xs hres
    refine ⟨by simp [searchOfResponse, hres], ?_⟩
    intro entry _
    refine ⟨rfl, rfl, rfl, ?_, ?_, ?_, ?_, ?_, ?_, ?_⟩
    · intro v hv hne
      simp [mapSearchEntry, hv, coalesce_of_ne_null _ hne]
    · intro hid v hv hne
      simp [mapSearchEntry, coalesce_of_nullish _ hid, hv, coalesce_of_ne_null _ hne]
    · intro hid hpath
      simp [mapSearchEntry, coalesce_of_nullish _ hid, coalesce_of_nullish _ hpath, jsStr]
    · intro v hv hne
      simp [mapSearchEntry, hv, coalesce_of_ne_null _ hne]
    · intro hscore
      simp [mapSearchEntry, coalesce_of_nullish _ hscore, jsNum]
    · intro v hv hne
      simp [mapSearchEntry, hv, coalesce_of_ne_null _ hne]
    · intro hsnip
      simp [mapSearchEntry, coalesce_of_nullish _ hsnip, jsStr]

/-- Witness for claim C8: the spec scenario response maps to the expected
single normalized result. -/
theorem claim8_witness :
    searchOfResponse (Json.obj [("ok", .bool true),
        ("data", .obj [("results", .arr [Json.obj [("id", .str "MEMORY.md"),
          ("score", .num (91 / 100)), ("snippet", .str "remember this")]])])]) =
      .ok [{ path := "MEMORY.md", startLine := 1, endLine := 1,
             score := .finite (91 / 100), snippet := "remember this", source := "memory" }] :=
  (((claim8_search_mapping (Json.obj [("ok", .bool true),
      ("data", .obj [("results", .arr [Json.obj [("id", .str "MEMORY.md"),
        ("score", .num (91 / 100)), ("snippet", .str "remember this")]])])])).2
    [Json.obj [("id", .str "MEMORY.md"), ("score", .num (91 / 100)),
      ("snippet", .str "remember this")]] rfl).1).trans (by rfl)

theorem evictCacheEntry_primaryFailed (s : FallbackState) :
    (evictCacheEntry s).primaryFailed = s.primaryFailed := by
  unfold evictCacheEntry
  split <;> rfl

theorem ensureFallback_preserves (f : Except String (Option Nat)) (s : FallbackState) :
    ((ensureFallback f s).2).primaryFailed = s.primaryFailed ∧
    ((ensureFallback f s).2).lastError = s.lastError ∧
    ((ensureFallback f s).2).cacheEvicted = s.cacheEvicted ∧
    ((ensureFallback f s).2).evictCount = s.evictCount := by
  unfold ensureFallback
  cases s.fallback with
  | some fb => exact ⟨rfl, rfl, rfl, rfl⟩
  | none =>
    cases f with
    | error e => exact ⟨rfl, rfl, rfl, rfl⟩
    | ok o =>
      cases o with
      | none => exact ⟨rfl, rfl, rfl, rfl⟩
      | some fb => exact ⟨rfl, rfl, rfl, rfl⟩

theorem searchViaFallback_primaryFailed (f : Except String (Option Nat))
    (fbS : Nat → String → SearchOpts → Except String (List SearchResult))
    (q : String) (opts : SearchOpts) (s : FallbackState) :
    ((searchViaFallback f fbS q opts s).2).primaryFailed = s.primaryFailed := by
  unfold searchViaFallback
  have h := (ensureFallback_preserves f s).1
  cases hef : ensureFallback f s with
  | mk r s1 =>
    rw [hef] at h
    cases r with
    | error e => exact h
    | ok o =>
      cases o with
      | none => exact h
      | some fb => exact h

theorem readFile_primaryFailed (pR : Except String FileReadResult)
    (f : Except String (Option Nat)) (fbR : Nat → Except String FileReadResult)
    (s : FallbackState) :
    ((FallbackMemoryManager.readFile pR f fbR s).2).primaryFailed = s.primaryFailed := by
  unfold FallbackMemoryManager.readFile
  by_cases h : s.primaryFailed = false
  · rw [if_pos h]
  · rw [if_neg h]
    have hp := (ensureFallback_preserves f s).1
    cases hef : ensureFallback f s with
    | mk r s1 =>
      rw [hef] at hp
      cases r with
      | error e => exact hp
      | ok o =>
        cases o with
        | none => exact hp
        | some fb => exact hp

theorem sync_primaryFailed (pS : Option (Except String Unit))
    (f : Except String (Option Nat)) (fbS : Nat → Option (Except String Unit))
    (s : FallbackState) :
    ((FallbackMemoryManager.sync pS f fbS s).2).primaryFailed = s.primaryFailed := by
  unfold FallbackMemoryManager.sync
  by_cases h : s.primaryFailed = false
  · rw [if_pos h]
  · rw [if_neg h]
    have hp := (ensureFallback_preserves f s).1
    cases hef : ensureFallback f s with
    | mk r s1 =>
      rw [hef] at hp
      cases r with
      | error e => exact hp
      | ok o =>
        cases o with
        | none => exact hp
        | some fb => exact hp

theorem probeEmbedding_primaryFailed (pP : Except String ProbeResult)
    (f : Except String (Option Nat)) (fbP : Nat → Except String ProbeResult)
    (s : FallbackState) :
    ((FallbackMemoryManager.probeEmbeddingAvailability pP f fbP s).2).primaryFailed =
      s.primaryFailed := by
  unfold FallbackMemoryManager.probeEmbeddingAvailability
  by_cases h : s.primaryFailed = false
  · rw [if_pos h]
  · rw [if_neg h]
    have hp := (ensureFallback_preserves f s).1
    cases hef : ensureFallback f s with
    | mk r s1 =>
      rw [hef] at hp
      cases r with
      | error e => exact hp
      | ok o =>
        cases o with
        | none => exact hp
        | some fb => exact hp

theorem probeVector_primaryFailed (pV : Except String Bool)
    (f : Except String (Option Nat)) (fbV : Nat → Except String Bool)
    (s : FallbackState) :
    ((FallbackMemoryManager.probeVectorAvailability pV f fbV s).2).primaryFailed =
      s.primaryFailed := by
  unfold FallbackMemoryManager.probeVectorAvailability
  by_cases h : s.primaryFailed = false
  · rw [if_pos h]
  · rw [if_neg h]
    have hp := (ensureFallback_preserves f s).1
    cases hef : ensureFallback f s with
    | mk r s1 =>
      rw [hef] at hp
      cases r with
      | error e => exact hp
      | ok o =>
        cases o with
        | none => exact hp
        | some fb => exact hp

theorem close_primaryFailed (pC : Option (Except String Unit))
    (fbC : Nat → Option (Except String Unit)) (s : FallbackState) :
    ((FallbackMemoryManager.close pC fbC s).2).primaryFailed = s.primaryFailed := by
  unfold FallbackMemoryManager.close
  split
  · rfl
  · split
    · split
      · rfl
      · exact evictCacheEntry_primaryFailed s
    · exact evictCacheEntry_primaryFailed s

/-- Counterexample to claim C2 as stated: a degraded instance with no
constructed fallback still uses the primary in its status method — its
status output depends on the primary's current status (two runs differing
only in the primary's status report give different outputs), so "once
degraded the instance never returns to using the primary for any method"
fails at this input.  (The state machine part of the claim does hold; see
the amended theorem.) -/
theorem claim2_counterexample :
    FallbackMemoryManager.status "qmd"
        { info := "primary-status-A", custom := none, fallback := none }
        (fun _ => { info := "fb", custom := none, fallback := none })
        { fallback := none, primaryFailed := true, lastError := some "boom",
          cacheEvicted := true, evictCount := 1 } ≠
      FallbackMemoryManager.status "qmd"
        { info := "primary-status-B", custom := none, fallback := none }
        (fun _ => { info := "fb", custom := none, fallback := none })
        { fallback := none, primaryFailed := true, lastError := some "boom",
          cacheEvicted := true, evictCount := 1 } := by
  intro h
  exact absurd (congrArg StatusReport.info h) (by decide)

/-- Claim C2 as amended: the only transition into the degraded state is an
exception from a delegated primary search call; a failing readFile, sync,
or probe while still primary-active propagates the error to the caller
with the state unchanged; the degraded state is terminal (primaryFailed
stays true under every call), and degraded search, readFile, sync and
probe calls are served without consulting the primary (their outcome is
independent of the primary's behaviour) — while status on a degraded
instance without a constructed fallback still reads the primary's status,
and close still closes the primary. -/
theorem claim2_degrade_machine :
    (∀ (op : FallbackOp) (s : FallbackState), s.primaryFailed = false →
      (runOp op s).primaryFailed = true →
      ∃ pS f fbS q opts e, op = FallbackOp.search pS f fbS q opts ∧ pS q opts = .error e) ∧
    (∀ pRead factory fbRead (s : FallbackState) e, s.primaryFailed = false →
      pRead = .error e →
      FallbackMemoryManager.readFile pRead factory fbRead s = (.error e, s)) ∧
    (∀ factory fbSync (s : FallbackState) e, s.primaryFailed = false →
      FallbackMemoryManager.sync (some (.error e)) factory fbSync s = (.error e, s)) ∧
    (∀ factory fbProbe (s : FallbackState) e, s.primaryFailed = false →
      FallbackMemoryManager.probeEmbeddingAvailability (.error e) factory fbProbe s =
        (.error e, s)) ∧
    (∀ factory fbVec (s : FallbackState) e, s.primaryFailed = false →
      FallbackMemoryManager.probeVectorAvailability (.error e) factory fbVec s =
        (.error e, s)) ∧
    (∀ (op : FallbackOp) (s : FallbackState), s.primaryFailed = true →
      (runOp op s).primaryFailed = true) ∧
    (∀ (pS pS2 : String → SearchOpts → Except String (List SearchResult)) f fbS q opts
        (s : FallbackState), s.primaryFailed = true →
      FallbackMemoryManager.search pS f fbS q opts s =
        FallbackMemoryManager.search pS2 f fbS q opts s) ∧
    (∀ pR pR2 f fbR (s : FallbackState), s.primaryFailed = true →
      FallbackMemoryManager.readFile pR f fbR s =
        FallbackMemoryManager.readFile pR2 f fbR s) ∧
    (∀ pS pS2 f fbS (s : FallbackState), s.primaryFailed = true →
      FallbackMemoryManager.sync pS f fbS s = FallbackMemoryManager.sync pS2 f fbS s) ∧
    (∀ pP pP2 f fbP (s : FallbackState), s.primaryFailed = true →
      FallbackMemoryManager.probeEmbeddingAvailability pP f fbP s =
        FallbackMemoryManager.probeEmbeddingAvailability pP2 f fbP s) ∧
    (∀ pV pV2 f fbV (s : FallbackState), s.primaryFailed = true →
      FallbackMemoryManager.probeVectorAvailability pV f fbV s =
        FallbackMemoryManager.probeVectorAvailability pV2 f fbV s) := by
  refine ⟨?_, ?_, ?_, ?_, ?_, ?_, ?_, ?_, ?_, ?_, ?_⟩
  · intro op s h0 h1
    cases op with
    | search pS f fbS q opts =>
      cases hps : pS q opts with
      | ok r =>
        exfalso
        have hred : runOp (.search pS f fbS q opts) s = s := by
          simp [runOp, FallbackMemoryManager.search, h0, hps]
        rw [hred, h0] at h1
        exact Bool.noConfusion h1
      | error e => exact ⟨pS, f, fbS, q, opts, e, rfl, hps⟩
    | readFile pR f fbR =>
      exfalso
      have hred := readFile_primaryFailed pR f fbR s
      rw [show runOp (.readFile pR f fbR) s = (FallbackMemoryManager.readFile pR f fbR s).2
        from rfl, hred, h0] at h1
      exact Bool.noConfusion h1
    | statusCall b pSt fbSt =>
      exfalso
      rw [show runOp (.statusCall b pSt fbSt) s = s from rfl, h0] at h1
      exact Bool.noConfusion h1
    | sync pS f fbS =>
      exfalso
      have hred := sync_primaryFailed pS f fbS s
      rw [show runOp (.sync pS f fbS) s = (FallbackMemoryManager.sync pS f fbS s).2 from rfl,
        hred, h0] at h1
      exact Bool.noConfusion h1
    | probeEmbedding pP f fbP =>
      exfalso
      have hred := probeEmbedding_primaryFailed pP f fbP s
      rw [show runOp (.probeEmbedding pP f fbP) s =
        (FallbackMemoryManager.probeEmbeddingAvailability pP f fbP s).2 from rfl, hred, h0] at h1
      exact Bool.noConfusion h1
    | probeVector pV f fbV =>
      exfalso
      have hred := probeVector_primaryFailed pV f fbV s
      rw [show runOp (.probeVector pV f fbV) s =
        (FallbackMemoryManager.probeVectorAvailability pV f fbV s).2 from rfl, hred, h0] at h1
      exact Bool.noConfusion h1
    | close pC fbC =>
      exfalso
      have hred := close_primaryFailed pC fbC s
      rw [show runOp (.close pC fbC) s = (FallbackMemoryManager.close pC fbC s).2 from rfl,
        hred, h0] at h1
      exact Bool.noConfusion h1
  · intro pR f fbR s e h0 he
    subst he
    simp [FallbackMemoryManager.readFile, h0]
  · intro f fbS s e h0
    simp [FallbackMemoryManager.sync, h0]
  · intro f fbP s e h0
    simp [FallbackMemoryManager.probeEmbeddingAvailability, h0]
  · intro f fbV s e h0
    simp [FallbackMemoryManager.probeVectorAvailability, h0]
  · intro op s h
    cases op with
    | search pS f fbS q opts =>
      have hred : runOp (.search pS f fbS q opts) s =
          (FallbackMemoryManager.search pS f fbS q opts s).2 := rfl
      rw [hred]
      unfold FallbackMemoryManager.search
      rw [if_neg (by simp [h]), searchViaFallback_primaryFailed]
      exact h
    | readFile pR f fbR =>
      rw [show runOp (.readFile pR f fbR) s = (FallbackMemoryManager.readFile pR f fbR s).2
        from rfl, readFile_primaryFailed]
      exact h
    | statusCall b pSt fbSt => exact h
    | sync pS f fbS =>
      rw [show runOp (.sync pS f fbS) s = (FallbackMemoryManager.sync pS f fbS s).2 from rfl,
        sync_primaryFailed]
      exact h
    | probeEmbedding pP f fbP =>
      rw [show runOp (.probeEmbedding pP f fbP) s =
        (FallbackMemoryManager.probeEmbeddingAvailability pP f fbP s).2 from rfl,
        probeEmbedding_primaryFailed]
      exact h
    | probeVector pV f fbV =>
      rw [show runOp (.probeVector pV f fbV) s =
        (FallbackMemoryManager.probeVectorAvailability pV f fbV s).2 from rfl,
        probeVector_primaryFailed]
      exact h
    | close pC fbC =>
      rw [show runOp (.close pC fbC) s = (FallbackMemoryManager.close pC fbC s).2 from rfl,
        close_primaryFailed]
      exact h
  · intro pS pS2 f fbS q opts s h
    simp [FallbackMemoryManager.search, h]
  · intro pR pR2 f fbR s h
    simp [FallbackMemoryManager.readFile, h]
  · intro pS pS2 f fbS s h
    simp [FallbackMemoryManager.sync, h]
  · intro pP pP2 f fbP s h
    simp [FallbackMemoryManager.probeEmbeddingAvailability, h]
  · intro pV pV2 f fbV s h
    simp [FallbackMemoryManager.probeVectorAvailability, h]

/-- Witness for claim C2 at a concrete input: a primary readFile failure on
a fresh (primary-active) instance propagates its own error and leaves the
state unchanged. -/
theorem claim2_witness :
    FallbackMemoryManager.readFile (.error "io fail") (.ok none)
      (fun _ => .ok { text := "", path := "MEMORY.md" }) initialFallbackState =
      (.error "io fail", initialFallbackState) :=
  claim2_degrade_machine.2.1 (.error "io fail") (.ok none)
    (fun _ => .ok { text := "", path := "MEMORY.md" }) initialFallbackState "io fail" rfl rfl

theorem inv_of_preserved {s t : FallbackState}
    (hc : t.cacheEvicted = s.cacheEvicted) (he : t.evictCount = s.evictCount)
    (h : s.evictCount = cond s.cacheEvicted 1 0) :
    t.evictCount = cond t.cacheEvicted 1 0 := by
  rw [hc, he]
  exact h

theorem evictCacheEntry_inv (s : FallbackState)
    (h : s.evictCount = cond s.cacheEvicted 1 0) :
    (evictCacheEntry s).evictCount = cond (evictCacheEntry s).cacheEvicted 1 0 := by
  unfold evictCacheEntry
  by_cases hc : s.cacheEvicted = true
  · rw [if_pos hc]
    exact h
  · rw [if_neg hc]
    rw [show s.cacheEvicted = false by simpa using hc] at h
    simp [h]

theorem searchViaFallback_evictPair (f : Except String (Option Nat))
    (fbS : Nat → String → SearchOpts → Except String (List SearchResult))
    (q : String) (opts : SearchOpts) (s : FallbackState) :
    ((searchViaFallback f fbS q opts s).2).cacheEvicted = s.cacheEvicted ∧
    ((searchViaFallback f fbS q opts s).2).evictCount = s.evictCount := by
  unfold searchViaFallback
  have h := (ensureFallback_preserves f s).2.2
  cases hef : ensureFallback f s with
  | mk r s1 =>
    rw [hef] at h
    cases r with
    | error e => exact h
    | ok o =>
      cases o with
      | none => exact h
      | some fb => exact h

theorem readFile_evictPair (pR : Except String FileReadResult)
    (f : Except String (Option Nat)) (fbR : Nat → Except String FileReadResult)
    (s : FallbackState) :
    ((FallbackMemoryManager.readFile pR f fbR s).2).cacheEvicted = s.cacheEvicted ∧
    ((FallbackMemoryManager.readFile pR f fbR s).2).evictCount = s.evictCount := by
  unfold FallbackMemoryManager.readFile
  by_cases h0 : s.primaryFailed = false
  · rw [if_pos h0]; exact ⟨rfl, rfl⟩
  · rw [if_neg h0]
    have h := (ensureFallback_preserves f s).2.2
    cases hef : ensureFallback f s with
    | mk r s1 =>
      rw [hef] at h
      cases r with
      | error e => exact h
      | ok o =>
        cases o with
        | none => exact h
        | some fb => exact h

theorem sync_evictPair (pS : Option (Except String Unit))
    (f : Except String (Option Nat)) (fbS : Nat → Option (Except String Unit))
    (s : FallbackState) :
    ((FallbackMemoryManager.sync pS f fbS s).2).cacheEvicted = s.cacheEvicted ∧
    ((FallbackMemoryManager.sync pS f fbS s).2).evictCount = s.evictCount := by
  unfold FallbackMemoryManager.sync
  by_cases h0 : s.primaryFailed = false
  · rw [if_pos h0]; exact ⟨rfl, rfl⟩
  · rw [if_neg h0]
    have h := (ensureFallback_preserves f s).2.2
    cases hef : ensureFallback f s with
    | mk r s1 =>
      rw [hef] at h
      cases r with
      | error e => exact h
      | ok o =>
        cases o with
        | none => exact h
        | some fb => exact h

theorem probeEmbedding_evictPair (pP : Except String ProbeResult)
    (f : Except String (Option Nat)) (fbP : Nat → Except String ProbeResult)
    (s : FallbackState) :
    ((FallbackMemoryManager.probeEmbeddingAvailability pP f fbP s).2).cacheEvicted =
      s.cacheEvicted ∧
    ((FallbackMemoryManager.probeEmbeddingAvailability pP f fbP s).2).evictCount =
      s.evictCount := by
  unfold FallbackMemoryManager.probeEmbeddingAvailability
  by_cases h0 : s.primaryFailed = false
  · rw [if_pos h0]; exact ⟨rfl, rfl⟩
  · rw [if_neg h0]
    have h := (ensureFallback_preserves f s).2.2
    cases hef : ensureFallback f s with
    | mk r s1 =>
      rw [hef] at h
      cases r with
      | error e => exact h
      | ok o =>
        cases o with
        | none => exact h
        | some fb => exact h

theorem probeVector_evictPair (pV : Except String Bool)
    (f : Except String (Option Nat)) (fbV : Nat → Except String Bool)
    (s : FallbackState) :
    ((FallbackMemoryManager.probeVectorAvailability pV f fbV s).2).cacheEvicted =
      s.cacheEvicted ∧
    ((FallbackMemoryManager.probeVectorAvailability pV f fbV s).2).evictCount =
      s.evictCount := by
  unfold FallbackMemoryManager.probeVectorAvailability
  by_cases h0 : s.primaryFailed = false
  · rw [if_pos h0]; exact ⟨rfl, rfl⟩
  · rw [if_neg h0]
    have h := (ensureFallback_preserves f s).2.2
    cases hef : ensureFallback f s with
    | mk r s1 =>
      rw [hef] at h
      cases r with
      | error e => exact h
      | ok o =>
        cases o with
        | none => exact h
        | some fb => exact h

theorem runOp_evict_inv (op : FallbackOp) (s : FallbackState)
    (h : s.evictCount = cond s.cacheEvicted 1 0) :
    (runOp op s).evictCount = cond (runOp op s).cacheEvicted 1 0 := by
  cases op with
  | search pS f fbS q opts =>
    show ((FallbackMemoryManager.search pS f fbS q opts s).2).evictCount =
      cond ((FallbackMemoryManager.search pS f fbS q opts s).2).cacheEvicted 1 0
    unfold FallbackMemoryManager.search
    by_cases h0 : s.primaryFailed = false
    · rw [if_pos h0]
      cases hps : pS q opts with
      | ok r => exact h
      | error e =>
        have hinv := evictCacheEntry_inv
          { s with primaryFailed := true, lastError := some e } h
        have hp := searchViaFallback_evictPair f fbS q opts
          (evictCacheEntry { s with primaryFailed := true, lastError := some e })
        exact inv_of_preserved hp.1 hp.2 hinv
    · rw [if_neg h0]
      have hp := searchViaFallback_evictPair f fbS q opts s
      exact inv_of_preserved hp.1 hp.2 h
  | readFile pR f fbR =>
    have hp := readFile_evictPair pR f fbR s
    exact inv_of_preserved hp.1 hp.2 h
  | statusCall b pSt fbSt => exact h
  | sync pS f fbS =>
    have hp := sync_evictPair pS f fbS s
    exact inv_of_preserved hp.1 hp.2 h
  | probeEmbedding pP f fbP =>
    have hp := probeEmbedding_evictPair pP f fbP s
    exact inv_of_preserved hp.1 hp.2 h
  | probeVector pV f fbV =>
    have hp := probeVector_evictPair pV f fbV s
    exact inv_of_preserved hp.1 hp.2 h
  | close pC fbC =>
    show ((FallbackMemoryManager.close pC fbC s).2).evictCount =
      cond ((FallbackMemoryManager.close pC fbC s).2).cacheEvicted 1 0
    unfold FallbackMemoryManager.close
    split
    · exact h
    · split
      · split
        · exact h
        · exact evictCacheEntry_inv s h
      · exact evictCacheEntry_inv s h

theorem runOps_evict_inv : ∀ (ops : List FallbackOp) (s : FallbackState),
    s.evictCount = cond s.cacheEvicted 1 0 →
    (runOps ops s).evictCount = cond (runOps ops s).cacheEvicted 1 0
  | [], _, h => h
  | op :: ops, s, h => runOps_evict_inv ops (runOp op s) (runOp_evict_inv op s h)

/-- Claim C3: the eviction callback fires at most once over a decorator
instance's whole lifetime, under every interleaving of calls from the
initial state; and explicitly closing an instance whose eviction already
fired (cacheEvicted set, as after degrading) leaves the instance state
unchanged and does not delete the cache entry that a newer instance now
occupies under the same key. -/
theorem claim3_evict_at_most_once :
    (∀ ops : List FallbackOp, (runOps ops initialFallbackState).evictCount ≤ 1) ∧
    (∀ pClose fbClose (s : FallbackState) (key : String) (newId : Nat)
        (cache : List (String × Nat)),
      s.cacheEvicted = true → lookupAssoc cache key = some newId →
      (FallbackMemoryManager.close pClose fbClose s).2 = s ∧
      lookupAssoc
        (cacheAfterEvict s (FallbackMemoryManager.close pClose fbClose s).2 key cache)
        key = some newId) := by
  constructor
  · intro ops
    have h := runOps_evict_inv ops initialFallbackState rfl
    rw [h]
    cases (runOps ops initialFallbackState).cacheEvicted <;> simp
  · intro pC fbC s key newId cache hev hlk
    have hee : evictCacheEntry s = s := by
      unfold evictCacheEntry
      rw [if_pos hev]
    have hstate : (FallbackMemoryManager.close pC fbC s).2 = s := by
      unfold FallbackMemoryManager.close
      split
      · rfl
      · split
        · split
          · rfl
          · exact congrArg Prod.snd (congrArg (Prod.mk (Except.ok ())) hee)
        · exact congrArg Prod.snd (congrArg (Prod.mk (Except.ok ())) hee)
    refine ⟨hstate, ?_⟩
    rw [hstate]
    unfold cacheAfterEvict
    rw [if_neg (Nat.lt_irrefl _)]
    exact hlk

/-- Witness for claim C3 at concrete inputs: the empty call sequence, and a
stale degraded-and-evicted instance being closed while a newer entry sits
in the cache under the same key. -/
theorem claim3_witness :
    (runOps [] initialFallbackState).evictCount ≤ 1 ∧
    lookupAssoc (cacheAfterEvict
        { fallback := none, primaryFailed := true, lastError := some "boom",
          cacheEvicted := true, evictCount := 1 }
        (FallbackMemoryManager.close none (fun _ => none)
          { fallback := none, primaryFailed := true, lastError := some "boom",
            cacheEvicted := true, evictCount := 1 }).2
        "main:qmd:cfg" [("main:qmd:cfg", 5)]) "main:qmd:cfg" = some 5 :=
  ⟨claim3_evict_at_most_once.1 [],
   (claim3_evict_at_most_once.2 none (fun _ => none)
      { fallback := none, primaryFailed := true, lastError := some "boom",
        cacheEvicted := true, evictCount := 1 }
      "main:qmd:cfg" 5 [("main:qmd:cfg", 5)] rfl rfl).2⟩

/-- Claim C6: a search call carrying a sessionKey forwards the unchanged
options object — hence the same sessionKey value — to whichever
implementation serves the call: the primary while primary-active (the
result is exactly the primary applied to the given query and options), the
memoized fallback once degraded, and the freshly constructed fallback on
the very call that degrades. -/
theorem claim6_sessionKey_forwarded :
    ∀ (pSearch : String → SearchOpts → Except String (List SearchResult))
      (factory : Except String (Option Nat))
      (fbSearch : Nat → String → SearchOpts → Except String (List SearchResult))
      (q : String) (opts : SearchOpts) (k : String) (s : FallbackState),
      opts.sessionKey = some k →
      (∀ r, s.primaryFailed = false → pSearch q opts = .ok r →
        FallbackMemoryManager.search pSearch factory fbSearch q opts s = (.ok r, s)) ∧
      (∀ fb, s.primaryFailed = true → s.fallback = some fb →
        FallbackMemoryManager.search pSearch factory fbSearch q opts s =
          (fbSearch fb q opts, s)) ∧
      (∀ e fb, s.primaryFailed = false → pSearch q opts = .error e → s.fallback = none →
        factory = .ok (some fb) →
        (FallbackMemoryManager.search pSearch factory fbSearch q opts s).1 =
          fbSearch fb q opts) := by
  intro pSearch factory fbSearch q opts k s _
  refine ⟨?_, ?_, ?_⟩
  · intro r h0 hps
    simp [FallbackMemoryManager.search, h0, hps]
  · intro fb h1 hfb
    simp [FallbackMemoryManager.search, h1, searchViaFallback, ensureFallback, hfb]
  · intro e fb h0 hps hfb hfac
    by_cases hc : s.cacheEvicted = true <;>
      simp [FallbackMemoryManager.search, h0, hps, searchViaFallback, ensureFallback, hfb,
        hfac, evictCacheEntry, hc]

/-- Witness for claim C6 on a degraded instance with a memoized fallback:
the fallback observes the very sessionKey the caller passed (it echoes it
into the snippet of its result). -/
theorem claim6_witness :
    FallbackMemoryManager.search (fun _ _ => .ok []) (.ok none)
      (fun _ q2 o => .ok [⟨q2, 1, 1, .finite 0,
        (match o.sessionKey with
         | some k => k
         | none => ""), "memory"⟩])
      "hello" ⟨none, none, some "whatsapp:123"⟩
      ⟨some 7, true, some "qmd failed", true, 1⟩ =
      (.ok [⟨"hello", 1, 1, .finite 0, "whatsapp:123", "memory"⟩],
       ⟨some 7, true, some "qmd failed", true, 1⟩) :=
  ((claim6_sessionKey_forwarded (fun _ _ => .ok []) (.ok none)
      (fun _ q2 o => .ok [⟨q2, 1, 1, .finite 0,
        (match o.sessionKey with
         | some k => k
         | none => ""), "memory"⟩])
      "hello" ⟨none, none, some "whatsapp:123"⟩ "whatsapp:123"
      ⟨some 7, true, some "qmd failed", true, 1⟩ rfl).2.1 7 rfl rfl).trans (by rfl)

/-- Counterexample to claim C9 as stated: on a degraded instance whose
recorded primary error is "primary down", a fallback factory that throws
"factory crash" makes the search call raise the factory's own error, not
the recorded lastError, so "the call raises an error whose message is the
recorded primary error" fails for a failing (throwing) factory. -/
theorem claim9_counterexample :
    (FallbackMemoryManager.search (fun _ _ => .ok []) (.error "factory crash")
        (fun _ _ _ => .ok [])
        "q" { maxResults := none, minScore := none, sessionKey := none }
        { fallback := none, primaryFailed := true, lastError := some "primary down",
          cacheEvicted := true, evictCount := 1 }).1 = .error "factory crash" ∧
    (Except.error "factory crash" : Except String (List SearchResult)) ≠
      .error "primary down" := by
  refine ⟨rfl, fun h => ?_⟩
  exact absurd (Except.error.inj h) (by decide)

/-- Claim C9 as amended: on a degraded instance, a fallback factory that
yields no handle makes the call raise the recorded primary error
(lastError) and memoizes nothing, so the factory is retried on the next
call (which, on success, memoizes the handle); a factory that throws
propagates its own error instead; a successfully constructed fallback is
memoized and every later degraded call uses it without consulting the
factory at all. -/
theorem claim9_fallback_memo :
    ∀ (pSearch : String → SearchOpts → Except String (List SearchResult))
      (fbSearch : Nat → String → SearchOpts → Except String (List SearchResult))
      (q : String) (opts : SearchOpts) (s : FallbackState),
      s.primaryFailed = true →
      (∀ e, s.fallback = none → s.lastError = some e →
        FallbackMemoryManager.search pSearch (.ok none) fbSearch q opts s = (.error e, s)) ∧
      (∀ fb (factory : Except String (Option Nat)), s.fallback = some fb →
        FallbackMemoryManager.search pSearch factory fbSearch q opts s =
          (fbSearch fb q opts, s)) ∧
      (∀ fb, s.fallback = none →
        FallbackMemoryManager.search pSearch (.ok (some fb)) fbSearch q opts s =
          (fbSearch fb q opts, { s with fallback := some fb })) := by
  intro pSearch fbSearch q opts s h1
  refine ⟨?_, ?_, ?_⟩
  · intro e hfb hle
    simp [FallbackMemoryManager.search, h1, searchViaFallback, ensureFallback, hfb, hle]
  · intro fb factory hfb
    simp [FallbackMemoryManager.search, h1, searchViaFallback, ensureFallback, hfb]
  · intro fb hfb
    simp [FallbackMemoryManager.search, h1, searchViaFallback, ensureFallback, hfb]

/-- Witness for claim C9 on a concrete degraded instance: a factory that
yields no handle raises the recorded primary error and leaves the state
unchanged. -/
theorem claim9_witness :
    FallbackMemoryManager.search (fun _ _ => .ok []) (.ok none) (fun _ _ _ => .ok [])
      "q" { maxResults := none, minScore := none, sessionKey := none }
      { fallback := none, primaryFailed := true, lastError := some "primary down",
        cacheEvicted := true, evictCount := 1 } =
      (.error "primary down",
       { fallback := none, primaryFailed := true, lastError := some "primary down",
         cacheEvicted := true, evictCount := 1 }) :=
  (claim9_fallback_memo (fun _ _ => .ok []) (fun _ _ _ => .ok []) "q"
      { maxResults := none, minScore := none, sessionKey := none }
      { fallback := none, primaryFailed := true, lastError := some "primary down",
        cacheEvicted := true, evictCount := 1 } rfl).1 "primary down" rfl rfl

/-- Counterexample to claim C1 as stated: with providerKind engram, two
acquire calls with the same agentId and the same resolved config each
invoke EngramMemoryManager.create (the construction counter reaches 2) and
return two distinct decorator instances — the engram branch of
getMemorySearchManager performs no caching at all. -/
theorem claim1_counterexample :
    (getMemorySearchManager "main" ⟨"engram", none, some (.obj [])⟩
        ⟨.ok true, .ok true, .ok 99⟩ ⟨[], 0, 0, 0⟩).1.manager = some 0 ∧
    (getMemorySearchManager "main" ⟨"engram", none, some (.obj [])⟩
        ⟨.ok true, .ok true, .ok 99⟩
        (getMemorySearchManager "main" ⟨"engram", none, some (.obj [])⟩
          ⟨.ok true, .ok true, .ok 99⟩ ⟨[], 0, 0, 0⟩).2).1.manager = some 1 ∧
    (some 1 : Option Nat) ≠ some 0 ∧
    (getMemorySearchManager "main" ⟨"engram", none, some (.obj [])⟩
        ⟨.ok true, .ok true, .ok 99⟩
        (getMemorySearchManager "main" ⟨"engram", none, some (.obj [])⟩
          ⟨.ok true, .ok true, .ok 99⟩ ⟨[], 0, 0, 0⟩).2).2.engramCreates = 2 :=
  ⟨rfl, rfl, by decide, rfl⟩

/-- Claim C1 as amended (the cached path): for the qmd provider kind, when
the first acquire succeeds (its create yields a handle, or the key is
already cached), a second acquire with the same agentId and a structurally
equal resolved config returns the identical cached decorator, leaves the
state untouched, and QmdMemoryManager.create is invoked at most once across
both calls (the engram provider kind, by contrast, is never cached; see the
counterexample). -/
theorem claim1_qmd_cache_reuse :
    ∀ (agentId : String) (A B : Json) (env1 env2 : AcquireEnv) (st0 : AcquireState),
      jsonWF A = true → jsonWF B = true → structEq A B = true →
      env1.qmdCreate = .ok true →
      ((getMemorySearchManager agentId ⟨"qmd", some B, none⟩ env2
          (getMemorySearchManager agentId ⟨"qmd", some A, none⟩ env1 st0).2).1.manager =
        (getMemorySearchManager agentId ⟨"qmd", some A, none⟩ env1 st0).1.manager) ∧
      ((getMemorySearchManager agentId ⟨"qmd", some A, none⟩ env1 st0).1.manager).isSome =
        true ∧
      ((getMemorySearchManager agentId ⟨"qmd", some B, none⟩ env2
          (getMemorySearchManager agentId ⟨"qmd", some A, none⟩ env1 st0).2).2 =
        (getMemorySearchManager agentId ⟨"qmd", some A, none⟩ env1 st0).2) ∧
      (getMemorySearchManager agentId ⟨"qmd", some A, none⟩ env1 st0).2.qmdCreates ≤
        st0.qmdCreates + 1 ∧
      (getMemorySearchManager agentId ⟨"qmd", some A, none⟩ env1 st0).2.engramCreates =
        st0.engramCreates := by
  intro agentId A B env1 env2 st0 hwA hwB hse hqc
  have hkey : buildPrimaryCacheKey agentId "qmd" B = buildPrimaryCacheKey agentId "qmd" A := by
    unfold buildPrimaryCacheKey stableSerialize
    rw [sortValue_congr A B hwA hwB hse]
  cases hl : lookupAssoc st0.cache (buildPrimaryCacheKey agentId "qmd" A) with
  | some id =>
    refine ⟨?_, ?_, ?_, ?_, ?_⟩ <;>
      simp [getMemorySearchManager, hkey, hl, Nat.le_succ]
  | none =>
    refine ⟨?_, ?_, ?_, ?_, ?_⟩ <;>
      simp [getMemorySearchManager, hkey, hl, hqc, lookupAssoc]

/-- Witness for claim C1 at concrete inputs: two acquires for the qmd
backend with key-reordered but structurally equal configs hit the same
cache entry. -/
theorem claim1_witness :
    ((getMemorySearchManager "main" ⟨"qmd", some (.obj [("y", .null), ("x", .str "1")]), none⟩
        ⟨.ok true, .ok true, .ok 99⟩
        (getMemorySearchManager "main"
          ⟨"qmd", some (.obj [("x", .str "1"), ("y", .null)]), none⟩
          ⟨.ok true, .ok true, .ok 99⟩ ⟨[], 0, 0, 0⟩).2).1.manager =
      (getMemorySearchManager "main" ⟨"qmd", some (.obj [("x", .str "1"), ("y", .null)]), none⟩
        ⟨.ok true, .ok true, .ok 99⟩ ⟨[], 0, 0, 0⟩).1.manager) ∧
    ((getMemorySearchManager "main" ⟨"qmd", some (.obj [("x", .str "1"), ("y", .null)]), none⟩
        ⟨.ok true, .ok true, .ok 99⟩ ⟨[], 0, 0, 0⟩).1.manager).isSome = true :=
  ⟨(claim1_qmd_cache_reuse "main" (.obj [("x", .str "1"), ("y", .null)])
      (.obj [("y", .null), ("x", .str "1")]) ⟨.ok true, .ok true, .ok 99⟩
      ⟨.ok true, .ok true, .ok 99⟩ ⟨[], 0, 0, 0⟩
      (by decide) (by decide) (by decide) rfl).1,
   (claim1_qmd_cache_reuse "main" (.obj [("x", .str "1"), ("y", .null)])
      (.obj [("y", .null), ("x", .str "1")]) ⟨.ok true, .ok true, .ok 99⟩
      ⟨.ok true, .ok true, .ok 99⟩ ⟨[], 0, 0, 0⟩
      (by decide) (by decide) (by decide) rfl).2.1⟩
